import Mathlib

/-!
A shallow embedding of the run-and-gun prototype's core simulation:
the physics/collision/state pipeline of src/player.py, src/enemies.py,
src/weapon.py, src/animation.py, src/level.py, with the constants of
src/settings.py.

Conventions of the embedding:
* Python floats are modelled as exact rationals; the properties at stake
  (revert-by-the-exact-delta, float/rect resynchronisation, timer
  bookkeeping) are algebraic and are carried out here exactly.
* pygame rects store integers. pyRound is Python's built-in round
  (round half to even), pyTrunc is Python's int() applied to a float
  (truncation toward zero); they appear exactly where the source converts
  a float to a rect coordinate.
* pygame's sprite kill() (removal from every group) is modelled as an
  alive flag set to false; a sprite group is a list.
* Sprite surfaces are abstracted to what the logic reads from them: an
  Animation keeps the length of its frame list, a rect keeps the size of
  the image it was made from. Image slicing, flipping and blitting are
  presentation only and carry no state the simulation reads back.
* Frame counts produced by slice_sprite_sheet_row depend on the size of
  the asset images (clamp=True stops at the sheet edge), so constructors
  take the sliced frame count as a parameter.
-/

/-- Python's built-in round on a rational: round half to even. -/
def pyRound (q : ℚ) : ℤ :=
  let f : ℤ := ⌊q⌋
  if q - f < 1/2 then f
  else if (1 : ℚ)/2 < q - f then f + 1
  else if 2 ∣ f then f else f + 1

/-- Python's int() on a rational: truncation toward zero. -/
def pyTrunc (q : ℚ) : ℤ := if 0 ≤ q then ⌊q⌋ else ⌈q⌉

/-- A pygame.Vector2 of floats. -/
structure Vec2 where
  x : ℚ
  y : ℚ

/-- A pygame.Rect: integer origin and size. -/
structure PyRect where
  x : ℤ
  y : ℤ
  w : ℤ
  h : ℤ
deriving DecidableEq

namespace PyRect

def left (r : PyRect) : ℤ := r.x

def top (r : PyRect) : ℤ := r.y

def right (r : PyRect) : ℤ := r.x + r.w

def bottom (r : PyRect) : ℤ := r.y + r.h

def centerx (r : PyRect) : ℤ := r.x + r.w / 2

def centery (r : PyRect) : ℤ := r.y + r.h / 2

/-- Assigning rect.right in pygame moves the rect so that its right edge
is the given value. -/
def setRight (r : PyRect) (v : ℤ) : PyRect := { r with x := v - r.w }

def setLeft (r : PyRect) (v : ℤ) : PyRect := { r with x := v }

def setBottom (r : PyRect) (v : ℤ) : PyRect := { r with y := v - r.h }

def setTop (r : PyRect) (v : ℤ) : PyRect := { r with y := v }

def move (r : PyRect) (dx dy : ℤ) : PyRect := { r with x := r.x + dx, y := r.y + dy }

/-- pygame Rect.colliderect: strict overlap on both axes; rects that only
touch along an edge do not collide. -/
def colliderect (a b : PyRect) : Bool :=
  decide (a.x < b.x + b.w) && decide (b.x < a.x + a.w) &&
  decide (a.y < b.y + b.h) && decide (b.y < a.y + a.h)

end PyRect

namespace settings

def TILE_SIZE : ℤ := 16

def GRAVITY : ℚ := 1800

def PLAYER_SPEED : ℚ := 260

def JUMP_SPEED : ℚ := 620

def BULLET_SPEED : ℚ := 560

def BULLET_LIFETIME : ℚ := 6/5

def PLAYER_MAX_HEALTH : ℤ := 100

def ENEMY_DAMAGE : ℤ := 10

def BOSS_DAMAGE : ℤ := 15

end settings

/-- The level: the static solid geometry plus the spawn data Level.load_csv
consumes from the grid (src/level.py). Entity physics reads solid_rects and
pixel_height; enemy/pickup/boss spawns are recorded as their spawn
positions (the constructed objects also need asset-dependent frame
counts, see the module comment). -/
structure Level where
  grid : List (List ℤ) := []
  width : ℕ := 0
  height : ℕ := 0
  pixel_width : ℤ := 0
  pixel_height : ℤ := 0
  solid_rects : List PyRect := []
  player_spawn : ℤ × ℤ := (0, 0)
  enemy_spawns : List (ℤ × ℤ) := []
  pickup_spawns : List (ℤ × ℤ) := []
  boss_spawn : Option (ℤ × ℤ) := none
  exit_rect : Option PyRect := none
deriving DecidableEq

/-- Level.get_solid_hits: all solid rects overlapping the query rect, in
solid-rect list order. -/
def Level.get_solid_hits (lv : Level) (rect : PyRect) : List PyRect :=
  lv.solid_rects.filter (fun r => r.colliderect rect)

/-- Level.rect_collides_solid. -/
def Level.rect_collides_solid (lv : Level) (rect : PyRect) : Bool :=
  lv.solid_rects.any (fun r => r.colliderect rect)

/-- Animation state (src/animation.py): frames is the length of the frame
list handed to the constructor. -/
structure Animation where
  frames : ℕ
  frame_duration : ℚ
  loop : Bool
  index : ℕ
  timer : ℚ
  finished : Bool
deriving DecidableEq

/-- The body of Animation.__init__ past its nonempty-frames check:
frame_duration is clamped to at least one millisecond. -/
def Animation.make (frames : ℕ) (frame_duration : ℚ) (loop : Bool) : Animation :=
  { frames := frames, frame_duration := max (1/1000) frame_duration, loop := loop,
    index := 0, timer := 0, finished := false }

/-- Animation.__init__ raises ValueError on an empty frame list. -/
def Animation.init (frames : ℕ) (frame_duration : ℚ) (loop : Bool) :
    Except String Animation :=
  if frames = 0 then .error "Animation requires at least one frame."
  else .ok (Animation.make frames frame_duration loop)

def Animation.reset (a : Animation) : Animation :=
  { a with index := 0, timer := 0, finished := false }

/-- Animation.update(dt, speed): no-op once finished or at clamped speed
zero; dt is clamped to 1/30 s; at most ONE frame advance per call, the
excess stays in the timer; running past the last frame wraps when looping
and otherwise clamps to the last frame and finishes. -/
def Animation.update (a : Animation) (dt : ℚ) (speed : ℚ) : Animation :=
  if a.finished then a
  else
    let speed := max 0 speed
    if speed = 0 then a
    else
      let dt := min dt (1/30)
      let timer := a.timer + dt * speed
      if a.frame_duration ≤ timer then
        let timer' := timer - a.frame_duration
        let index := a.index + 1
        if a.frames ≤ index then
          if a.loop then { a with timer := timer', index := 0 }
          else { a with timer := timer', index := a.frames - 1, finished := true }
        else { a with timer := timer', index := index }
      else { a with timer := timer }

/-- Iterated Animation.update over a list of (dt, speed) calls. -/
def Animation.runUpdates (a : Animation) (steps : List (ℚ × ℚ)) : Animation :=
  steps.foldl (fun a s => a.update s.1 s.2) a

/-- The effective timer increment of one Animation.update call: dt clamped
to 1/30 s times the speed clamped below at zero. -/
def effInc (dt speed : ℚ) : ℚ := min dt (1/30) * max 0 speed

/-- Weapon state (src/weapon.py). -/
structure Weapon where
  cooldown : ℚ
  time_since_shot : ℚ
deriving DecidableEq

/-- Weapon.__init__: cooldown 0.15 s; the timer starts large so the first
shot is always permitted. -/
def Weapon.make : Weapon := { cooldown := 3/20, time_since_shot := 999 }

def Weapon.update (w : Weapon) (dt : ℚ) : Weapon :=
  { w with time_since_shot := w.time_since_shot + dt }

def Weapon.can_shoot (w : Weapon) : Bool := decide (w.cooldown ≤ w.time_since_shot)

/-- Bullet state (src/weapon.py). -/
structure Bullet where
  rect : PyRect
  vel : Vec2
  lifetime : ℚ
  alive_time : ℚ

/-- Bullet.__init__: a 10x4 rect centred at pos (pygame truncates the
float centre into the integer rect), horizontal velocity
BULLET_SPEED * direction, no float position of its own. -/
def Bullet.make (pos : Vec2) (direction : ℤ) : Bullet :=
  { rect := { x := pyTrunc pos.x - 5, y := pyTrunc pos.y - 2, w := 10, h := 4 },
    vel := { x := settings.BULLET_SPEED * (direction : ℚ), y := 0 },
    lifetime := settings.BULLET_LIFETIME, alive_time := 0 }

/-- Weapon.shoot: silently does nothing before the cooldown elapses;
otherwise resets the timer to zero and adds exactly one bullet to the
group. -/
def Weapon.shoot (w : Weapon) (bullets_group : List Bullet) (pos : Vec2)
    (direction : ℤ) : Weapon × List Bullet :=
  if !w.can_shoot then (w, bullets_group)
  else ({ w with time_since_shot := 0 }, bullets_group ++ [Bullet.make pos direction])

/-- Bullet.update: move the rect by int(vel*dt) on each axis, age by dt,
kill on lifetime expiry (and return), else kill on any solid overlap
checked after the move. The Bool is pygame sprite-aliveness after the
tick: false once kill() ran. -/
def Bullet.update (b : Bullet) (dt : ℚ) (level : Level) : Bullet × Bool :=
  let rect : PyRect := { b.rect with x := b.rect.x + pyTrunc (b.vel.x * dt),
                                     y := b.rect.y + pyTrunc (b.vel.y * dt) }
  let alive_time := b.alive_time + dt
  let b' : Bullet := { b with rect := rect, alive_time := alive_time }
  if b'.lifetime ≤ alive_time then (b', false)
  else if level.rect_collides_solid rect then (b', false)
  else (b', true)

/-- Run one weapon through a schedule of fire attempts: each attempt first
advances the cooldown timer by the gap since the previous attempt
(Weapon.update), then calls Weapon.shoot into the accumulated group. -/
def fireSchedule (w : Weapon) (bullets : List Bullet) (pos : Vec2) (direction : ℤ)
    (gaps : List ℚ) : Weapon × List Bullet :=
  gaps.foldl (fun st gap => (st.1.update gap).shoot st.2 pos direction) (w, bullets)

/-- The timer decay pattern used for the player's invulnerability, jump
buffer and coyote timers: decrement by dt, floored at zero, only while
positive. -/
def decayTimer (t dt : ℚ) : ℚ := if 0 < t then max 0 (t - dt) else t

/-- State threaded through the vertical hits loop that player, patrol
enemy and boss share verbatim. -/
structure VStep where
  rect : PyRect
  vely : ℚ
  posy : ℚ
  on_ground : Bool

/-- One iteration of the vertical hits loop: falling snaps the rect bottom
to the tile top, zeroes vel.y and grounds; rising snaps the rect top to
the tile bottom and zeroes vel.y; pos.y is resynced to rect.y after every
hit, whichever branch ran. -/
def vertCollideStep (st : VStep) (tile : PyRect) : VStep :=
  if 0 < st.vely then
    let r := st.rect.setBottom tile.top
    { rect := r, vely := 0, posy := (r.y : ℚ), on_ground := true }
  else if st.vely < 0 then
    let r := st.rect.setTop tile.bottom
    { rect := r, vely := 0, posy := (r.y : ℚ), on_ground := st.on_ground }
  else
    { st with posy := (st.rect.y : ℚ) }

/-- The shared vertical step: pos.y has already been integrated; rect.y is
derived by rounding, on_ground cleared, then every overlapping solid is
processed in order. -/
def vertStep (level : Level) (rect : PyRect) (vely posy : ℚ) : VStep :=
  let rect : PyRect := { rect with y := pyRound posy }
  let hits := level.get_solid_hits rect
  hits.foldl vertCollideStep { rect := rect, vely := vely, posy := posy, on_ground := false }

/-- The shared 1-pixel-down ground probe that stabilises on_ground. -/
def groundProbe (level : Level) (rect : PyRect) (on_ground : Bool) : Bool :=
  if on_ground then true
  else !(level.get_solid_hits (rect.move 0 1)).isEmpty

/-- One iteration of the player's horizontal hits loop: moving right snaps
rect.right to the tile's left edge, moving left snaps rect.left to the
tile's right edge, and pos.x is resynced to rect.x after every hit. -/
def horizHitStep (velx : ℚ) (st : ℚ × PyRect) (tile : PyRect) : ℚ × PyRect :=
  let r := if 0 < velx then st.2.setRight tile.left
           else if velx < 0 then st.2.setLeft tile.right
           else st.2
  ((r.x : ℚ), r)

/-- Which Animation object the player currently plays. -/
inductive AnimTag
  | idle
  | run
  | jump
deriving DecidableEq

/-- Player state (src/player.py). moving is set by handle_input and read
by the animation selection in update. -/
structure Player where
  rect : PyRect
  pos : Vec2
  vel : Vec2
  on_ground : Bool
  facing : ℤ
  moving : Bool
  jump_buffer_time : ℚ
  jump_buffer : ℚ
  coyote_time : ℚ
  coyote_timer : ℚ
  weapon : Weapon
  health : ℤ
  max_health : ℤ
  invuln_time : ℚ
  idle_anim : Animation
  run_anim : Animation
  jump_anim : Animation
  current_anim : AnimTag

/-- Player.__init__ at a spawn position; the three sliced frame counts are
asset data (the source requests 6/8/8 frames with clamping). moving starts
false (the game loop always calls handle_input before update). -/
def Player.make (pos : ℤ × ℤ) (idleFrames runFrames jumpFrames : ℕ) : Player :=
  { rect := { x := pos.1, y := pos.2, w := 32, h := 32 },
    pos := { x := (pos.1 : ℚ), y := (pos.2 : ℚ) },
    vel := { x := 0, y := 0 },
    on_ground := false, facing := 1, moving := false,
    jump_buffer_time := 12/100, jump_buffer := 0,
    coyote_time := 1/10, coyote_timer := 0,
    weapon := Weapon.make,
    health := settings.PLAYER_MAX_HEALTH, max_health := settings.PLAYER_MAX_HEALTH,
    invuln_time := 0,
    idle_anim := Animation.make idleFrames (15/100) true,
    run_anim := Animation.make runFrames (2/10) true,
    jump_anim := Animation.make jumpFrames (12/100) true,
    current_anim := AnimTag.idle }

/-- Player.heal: clamped above at max_health. -/
def Player.heal (p : Player) (amount : ℤ) : Player :=
  { p with health := min p.max_health (p.health + amount) }

/-- Player.take_damage: a no-op while invulnerable; otherwise subtract,
start the 0.6 s invulnerability window, and floor health at zero. -/
def Player.take_damage (p : Player) (amount : ℤ) : Player :=
  if 0 < p.invuln_time then p
  else
    let health := p.health - amount
    let health := if health < 0 then 0 else health
    { p with health := health, invuln_time := 6/10 }

def Player.is_dead (p : Player) : Bool := decide (p.health ≤ 0)

/-- Player.handle_input with the pre-decoded left/right key states. -/
def Player.handle_input (p : Player) (left right : Bool) : Player :=
  let velx : ℚ := 0
  let velx := if left then velx - settings.PLAYER_SPEED else velx
  let facing := if left then -1 else p.facing
  let moving := left
  let velx := if right then velx + settings.PLAYER_SPEED else velx
  let facing := if right then 1 else facing
  let moving := moving || right
  { p with vel := { p.vel with x := velx }, facing := facing, moving := moving }

/-- Player.queue_jump, called on key press: stores the jump request for a
short time. -/
def Player.queue_jump (p : Player) : Player :=
  { p with jump_buffer := p.jump_buffer_time }

/-- Player.cut_jump, called on key release: variable jump height. -/
def Player.cut_jump (p : Player) : Player :=
  if p.vel.y < 0 then { p with vel := { p.vel with y := p.vel.y * (45/100) } } else p

def Player.getAnim (p : Player) (t : AnimTag) : Animation :=
  match t with
  | .idle => p.idle_anim
  | .run => p.run_anim
  | .jump => p.jump_anim

def Player.putAnim (p : Player) (t : AnimTag) (a : Animation) : Player :=
  match t with
  | .idle => { p with idle_anim := a }
  | .run => { p with run_anim := a }
  | .jump => { p with jump_anim := a }

/-- Player.set_anim: reset only when the active animation object actually
changes, then advance it. Image flipping is presentation and not
modelled. -/
def Player.set_anim (p : Player) (t : AnimTag) (dt : ℚ) (speed : ℚ) : Player :=
  let p := if p.current_anim = t then p
           else { p.putAnim t ((p.getAnim t).reset) with current_anim := t }
  p.putAnim t ((p.getAnim t).update dt speed)

/-- The physics part of Player.update(dt, level), in the exact source
order: timers, weapon timer, gravity, horizontal step and resolution,
vertical step and resolution, ground probe, coyote reset, buffered
jump. -/
def Player.physStep (p : Player) (dt : ℚ) (level : Level) : Player :=
  let invuln_time := decayTimer p.invuln_time dt
  let jump_buffer := decayTimer p.jump_buffer dt
  let coyote_timer := decayTimer p.coyote_timer dt
  let weapon := p.weapon.update dt
  let vel : Vec2 := { x := p.vel.x, y := p.vel.y + settings.GRAVITY * dt }
  let posx := p.pos.x + vel.x * dt
  let rect : PyRect := { p.rect with x := pyRound posx }
  let hits := level.get_solid_hits rect
  let hstate := hits.foldl (horizHitStep vel.x) (posx, rect)
  let posx := hstate.1
  let rect := hstate.2
  let vs := vertStep level rect vel.y (p.pos.y + vel.y * dt)
  let rect := vs.rect
  let posy := vs.posy
  let vel : Vec2 := { x := vel.x, y := vs.vely }
  let on_ground := groundProbe level rect vs.on_ground
  let coyote_timer := if on_ground then p.coyote_time else coyote_timer
  let can_jump := on_ground || decide (0 < coyote_timer)
  let jumps := decide (0 < jump_buffer) && can_jump
  let vel : Vec2 := if jumps then { vel with y := -settings.JUMP_SPEED } else vel
  let on_ground := if jumps then false else on_ground
  let coyote_timer := if jumps then 0 else coyote_timer
  let jump_buffer := if jumps then 0 else jump_buffer
  { p with rect := rect, pos := { x := posx, y := posy }, vel := vel,
           on_ground := on_ground, invuln_time := invuln_time,
           jump_buffer := jump_buffer, coyote_timer := coyote_timer,
           weapon := weapon }

/-- One Player.update(dt, level) tick: the physics step above, then the
animation selection (airborne beats moving beats idle), which reads the
freshly written on_ground and the moving flag left by handle_input. -/
def Player.update (p : Player) (dt : ℚ) (level : Level) : Player :=
  let p' := p.physStep dt level
  if !p'.on_ground then p'.set_anim .jump dt 1
  else if p.moving then p'.set_anim .run dt 1
  else p'.set_anim .idle dt 1

/-- Iterate Player.update n ticks with a fixed dt against a fixed level. -/
def Player.runTicks (p : Player) (dt : ℚ) (level : Level) : ℕ → Player
  | 0 => p
  | n + 1 => (p.runTicks dt level n).update dt level

/-- Patrol enemy state (src/enemies.py NormalEnemy; EnemyBase fields
included). -/
structure NormalEnemy where
  rect : PyRect
  pos : Vec2
  vel : Vec2
  health : ℤ
  on_ground : Bool
  facing : ℤ
  walk_anim : Animation
  alive : Bool

/-- NormalEnemy.__init__: a 32x32 patrol enemy, initial velocity (-80, 0),
health 30; walkFrames is the asset-dependent sliced frame count (6
requested). -/
def NormalEnemy.make (pos : ℤ × ℤ) (walkFrames : ℕ) : NormalEnemy :=
  { rect := { x := pos.1, y := pos.2, w := 32, h := 32 },
    pos := { x := (pos.1 : ℚ), y := (pos.2 : ℚ) },
    vel := { x := -80, y := 0 },
    health := 30, on_ground := false, facing := 1,
    walk_anim := Animation.make walkFrames (1/10) true,
    alive := true }

/-- EnemyBase.take_damage: subtract with no floor at zero; kill() the
sprite when the result is ≤ 0. -/
def NormalEnemy.take_damage (e : NormalEnemy) (amount : ℤ) : NormalEnemy :=
  let health := e.health - amount
  { e with health := health, alive := if health ≤ 0 then false else e.alive }

/-- One NormalEnemy.update(dt, level, player) tick (the player argument is
not read by the body and is omitted): gravity, horizontal step with
revert-and-reverse resolution, shared vertical step, ground probe,
animation, fell-off-world kill. -/
def NormalEnemy.update (e : NormalEnemy) (dt : ℚ) (level : Level) : NormalEnemy :=
  let vel : Vec2 := { x := e.vel.x, y := e.vel.y + settings.GRAVITY * dt }
  let posx := e.pos.x + vel.x * dt
  let rect : PyRect := { e.rect with x := pyRound posx }
  let collided := level.rect_collides_solid rect
  let posx := if collided then posx - vel.x * dt else posx
  let rect := if collided then { rect with x := pyRound (posx) } else rect
  let vel : Vec2 := if collided then { vel with x := -vel.x } else vel
  let facing := if collided then -e.facing else e.facing
  let vs := vertStep level rect vel.y (e.pos.y + vel.y * dt)
  let on_ground := groundProbe level vs.rect vs.on_ground
  let walk_anim := e.walk_anim.update dt 1
  let alive := if level.pixel_height + 200 < vs.rect.top then false else e.alive
  { rect := vs.rect, pos := { x := posx, y := vs.posy },
    vel := { x := vel.x, y := vs.vely },
    health := e.health, on_ground := on_ground, facing := facing,
    walk_anim := walk_anim, alive := alive }

/-- Iterated NormalEnemy.update over a list of (dt, level) ticks. -/
def NormalEnemy.runUpdates (e : NormalEnemy) (steps : List (ℚ × Level)) : NormalEnemy :=
  steps.foldl (fun e s => e.update s.1 s.2) e

/-- Boss state (src/enemies.py BossEnemy). -/
structure BossEnemy where
  rect : PyRect
  pos : Vec2
  vel : Vec2
  health : ℤ
  max_health : ℤ
  speed : ℚ
  weapon : Weapon
  on_ground : Bool
  facing : ℤ
  anim : Animation
  alive : Bool

/-- BossEnemy.__init__: the 64x64 rect is placed with midbottom at
(pos.x + 32, pos.y + 32); health 180, chase speed 110, weapon cooldown
0.6 s; animFrames is the asset-dependent sliced frame count (2
requested). -/
def BossEnemy.make (pos : ℤ × ℤ) (animFrames : ℕ) : BossEnemy :=
  { rect := { x := pos.1, y := pos.2 - 32, w := 64, h := 64 },
    pos := { x := (pos.1 : ℚ), y := ((pos.2 - 32 : ℤ) : ℚ) },
    vel := { x := 0, y := 0 },
    health := 180, max_health := 180, speed := 110,
    weapon := { Weapon.make with cooldown := 6/10 },
    on_ground := false, facing := 1,
    anim := Animation.make animFrames (3/10) true,
    alive := true }

/-- EnemyBase.take_damage for the boss: same subtract-and-kill rule. -/
def BossEnemy.take_damage (b : BossEnemy) (amount : ℤ) : BossEnemy :=
  let health := b.health - amount
  { b with health := health, alive := if health ≤ 0 then false else b.alive }

/-- One BossEnemy.update(dt, level, player, boss_bullets) tick: face the
player, chase at constant speed, gravity, horizontal step with
revert-and-stop resolution, shared vertical step, ground probe, animation,
weapon tick and fire toward the player. Returns the boss and the bullet
group. -/
def BossEnemy.update (b : BossEnemy) (dt : ℚ) (level : Level) (player_rect : PyRect)
    (boss_bullets : List Bullet) : BossEnemy × List Bullet :=
  let facing : ℤ := if b.rect.centerx < player_rect.centerx then 1 else -1
  let direction := facing
  let vel : Vec2 := { x := b.speed * (direction : ℚ), y := b.vel.y + settings.GRAVITY * dt }
  let posx := b.pos.x + vel.x * dt
  let rect : PyRect := { b.rect with x := pyRound posx }
  let collided := level.rect_collides_solid rect
  let posx := if collided then posx - vel.x * dt else posx
  let rect := if collided then { rect with x := pyRound posx } else rect
  let velx := if collided then (0 : ℚ) else vel.x
  let vs := vertStep level rect vel.y (b.pos.y + vel.y * dt)
  let on_ground := groundProbe level vs.rect vs.on_ground
  let anim := b.anim.update dt 1
  let weapon := b.weapon.update dt
  let muzzle : Vec2 := { x := ((vs.rect.centerx + 18 * direction : ℤ) : ℚ),
                         y := ((vs.rect.centery - 8 : ℤ) : ℚ) }
  let ws := if weapon.can_shoot then weapon.shoot boss_bullets muzzle direction
            else (weapon, boss_bullets)
  ({ b with rect := vs.rect, pos := { x := posx, y := vs.posy },
            vel := { x := velx, y := vs.vely },
            on_ground := on_ground, facing := facing, anim := anim,
            weapon := ws.1 }, ws.2)

/-- The numeric value of a nonempty all-digit character list, most
significant digit first. -/
def digitsVal (cs : List Char) : Option ℕ :=
  if cs.isEmpty then none
  else
    cs.foldl
      (fun acc c =>
        match acc with
        | none => none
        | some n => if c.isDigit then some (n * 10 + (c.toNat - 48)) else none)
      (some 0)

/-- Python int(cell.strip()) on one CSV cell, modelled for plain decimal
literals (optional surrounding whitespace, optional sign, digits): none is
a ValueError. -/
def pyParseInt (cell : String) : Option ℤ :=
  let cs := ((cell.data.dropWhile Char.isWhitespace).reverse.dropWhile
    Char.isWhitespace).reverse
  match cs with
  | '-' :: rest => (digitsVal rest).map (fun n => -(n : ℤ))
  | '+' :: rest => (digitsVal rest).map (fun n => (n : ℤ))
  | _ => (digitsVal cs).map (fun n => (n : ℤ))

/-- The inner comprehension of Level.load_csv: parse every cell of a row;
any bad cell aborts the whole parse. -/
def parseRow : List String → Option (List ℤ)
  | [] => some []
  | c :: rest =>
    match pyParseInt c, parseRow rest with
    | some v, some vs => some (v :: vs)
    | _, _ => none

/-- The outer comprehension of Level.load_csv: parse every row. -/
def parseGrid : List (List String) → Option (List (List ℤ))
  | [] => some []
  | row :: rest =>
    match parseRow row, parseGrid rest with
    | some r, some rs => some (r :: rs)
    | _, _ => none

/-- One grid cell's dispatch in Level.load_csv's scan: solid ids 1..3
append a solid rect; 90/91/92/93/94 are the one-shot spawn markers; other
ids (including SOLID_04, which is drawn but not solid) leave the level
data unchanged. -/
def scanCell (lv : Level) (gy gx : ℕ) (tile_id : ℤ) : Level :=
  let world_x : ℤ := (gx : ℤ) * settings.TILE_SIZE
  let world_y : ℤ := (gy : ℤ) * settings.TILE_SIZE
  if tile_id = 1 ∨ tile_id = 2 ∨ tile_id = 3 then
    { lv with solid_rects :=
        lv.solid_rects ++ [⟨world_x, world_y, settings.TILE_SIZE, settings.TILE_SIZE⟩] }
  else if tile_id = 90 then { lv with player_spawn := (world_x, world_y - 16) }
  else if tile_id = 91 then
    { lv with enemy_spawns := lv.enemy_spawns ++ [(world_x, world_y - 16)] }
  else if tile_id = 92 then
    { lv with pickup_spawns := lv.pickup_spawns ++ [(world_x, world_y - 16)] }
  else if tile_id = 93 then { lv with boss_spawn := some (world_x, world_y - 48) }
  else if tile_id = 94 then
    { lv with exit_rect := some ⟨world_x, world_y - 16, 16, 16⟩ }
  else lv

/-- The inner for-gx-in-range(width) loop of Level.load_csv: each access
grid[gy][gx] raises IndexError when the row is shorter than the first
row's width. -/
def scanCols (gy : ℕ) (row : List ℤ) (gxs : List ℕ) (lv : Level) : Except String Level :=
  match gxs with
  | [] => .ok lv
  | gx :: rest =>
    match row.get? gx with
    | none => .error "IndexError: list index out of range"
    | some tile_id => scanCols gy row rest (scanCell lv gy gx tile_id)

/-- The outer for-gy-in-range(height) loop of Level.load_csv over the
parsed rows, paired with their indices. -/
def scanRows (width : ℕ) (rows : List (ℕ × List ℤ)) (lv : Level) : Except String Level :=
  match rows with
  | [] => .ok lv
  | (gy, row) :: rest =>
    match scanCols gy row (List.range width) lv with
    | .error e => .error e
    | .ok lv' => scanRows width rest lv'

/-- Level.load_csv on the parsed CSV text (a list of rows of cell
strings): parse every cell as an int (a ValueError aborts the load), take
the width from the first row, then scan all height x width cells row-major
building the solid rects and consuming the spawn markers. An error means
the Level constructor raised and no level object exists. -/
def load_csv (rows : List (List String)) : Except String Level :=
  match parseGrid rows with
  | none => .error "ValueError: invalid literal for int()"
  | some grid =>
    let height := grid.length
    let width := if height = 0 then 0 else grid.headI.length
    let lv : Level :=
      { grid := grid, width := width, height := height,
        pixel_width := (width : ℤ) * settings.TILE_SIZE,
        pixel_height := (height : ℤ) * settings.TILE_SIZE,
        solid_rects := [], player_spawn := (0, 0), enemy_spawns := [],
        pickup_spawns := [], boss_spawn := none, exit_rect := none }
    scanRows width grid.enum lv

/-- A health-affecting operation on the player. -/
inductive HealthOp
  | damage (amount : ℤ)
  | heal (amount : ℤ)

def HealthOp.amount : HealthOp → ℤ
  | .damage a => a
  | .heal a => a

def Player.applyOp (p : Player) : HealthOp → Player
  | .damage a => p.take_damage a
  | .heal a => p.heal a

def Player.applyOps (p : Player) (ops : List HealthOp) : Player :=
  ops.foldl Player.applyOp p

/-- A level whose solid geometry is empty (open air). -/
def emptyLevel : Level := { pixel_width := 320, pixel_height := 320 }

/-- A level with a single solid tile whose left edge is at x = 64. -/
def oneTileLevel : Level :=
  { solid_rects := [⟨64, 0, 16, 16⟩], pixel_width := 320, pixel_height := 320 }

/-- A level with a single solid tile whose left edge is at x = 112. -/
def leftTileLevel : Level :=
  { solid_rects := [⟨112, 0, 16, 16⟩], pixel_width := 320, pixel_height := 320 }

/-- A player one step away from the solid tile of oneTileLevel, walking
right at full speed. -/
def rightWalkingPlayer : Player :=
  { Player.make (0, 0) 6 8 8 with
      pos := { x := 163/5, y := 0 },
      rect := { x := 33, y := 0, w := 32, h := 32 },
      vel := { x := settings.PLAYER_SPEED, y := 0 } }

/-- A level with two solid tiles side by side, left edges at x = 48 and
x = 64, both overlapping a rect that spans them. -/
def twoTileLevel : Level :=
  { solid_rects := [⟨48, 0, 16, 16⟩, ⟨64, 0, 16, 16⟩],
    pixel_width := 320, pixel_height := 320 }

/-- A level with a single solid tile whose right edge is at x = 112, to
the left of a leftward-walking player. -/
def leftWallLevel : Level :=
  { solid_rects := [⟨96, 0, 16, 16⟩], pixel_width := 320, pixel_height := 320 }

/-- A player one step away from the solid tile of leftWallLevel, walking
left at full speed. -/
def leftWalkingPlayer : Player :=
  { Player.make (0, 0) 6 8 8 with
      pos := { x := 100, y := 0 },
      rect := { x := 100, y := 0, w := 32, h := 32 },
      vel := { x := -settings.PLAYER_SPEED, y := 0 } }

/-- A patrol enemy one step away from the solid tile of leftTileLevel
(walking left at its initial speed). -/
def patrolEnemyNearWall : NormalEnemy := NormalEnemy.make (100, 0) 6

/-- The boss spawned so that its rect sits at the origin. -/
def bossNearWall : BossEnemy := BossEnemy.make (0, 32) 2

/-- A player rect standing to the right of bossNearWall. -/
def playerRectRight : PyRect := ⟨200, 0, 32, 32⟩

/-- A weapon with the 0.5 s cooldown of the rate-limiting scenario. -/
def halfSecondWeapon : Weapon := { cooldown := 1/2, time_since_shot := 999 }

/-- A muzzle position for the rate-limiting scenario. -/
def originMuzzle : Vec2 := { x := 0, y := 0 }

/-- A bullet in flight: rect at (100, 50), full speed to the right, fresh
lifetime. -/
def flightBullet : Bullet :=
  { rect := ⟨100, 50, 10, 4⟩, vel := { x := settings.BULLET_SPEED, y := 0 },
    lifetime := settings.BULLET_LIFETIME, alive_time := 0 }

/-- The rect origin a float-tracked projectile would have after one tick,
modelled from the spec's words for the claimed projectile float/rect
synchronisation invariant (the code's Bullet carries no float position; this
definition exists to compare the claim against the code). -/
def floatTrackedRectX (x0 velx dt : ℚ) : ℤ := pyRound (x0 + velx * dt)

/-- A player the instant after leaving the ground: full coyote window,
empty jump buffer, at rest in the air. -/
def ledgePlayer : Player :=
  { Player.make (0, 0) 6 8 8 with coyote_timer := 1/10, on_ground := true }

/-- The run invariant of a fresh non-looping animation after consuming a
total effective elapsed time of s: while unfinished, the index counts the
frame advances so far and the timer holds the exact remainder; once
finished, the index is pinned to the last frame and at least n full frame
durations have elapsed. -/
def AnimInv (n : ℕ) (d s : ℚ) (a : Animation) : Prop :=
  a.frames = n ∧ a.frame_duration = d ∧ a.loop = false ∧
  (if a.finished = true then a.index = n - 1 ∧ (n : ℚ) * d ≤ s
   else a.index < n ∧ a.timer = s - d * (a.index : ℚ) ∧ 0 ≤ a.timer ∧ a.timer < d)

/-! ## Basic lemmas about rounding, the shared collision folds, and the
animation-selection step's effect on physics fields -/

theorem pyRound_intCast (n : ℤ) : pyRound (n : ℚ) = n := by
  norm_num [pyRound]

theorem pyRound_int_sub (a b : ℤ) : pyRound ((a : ℚ) - (b : ℚ)) = a - b := by
  rw [← Int.cast_sub]; exact pyRound_intCast _

theorem pyRound_int_add (a b : ℤ) : pyRound ((a : ℚ) + (b : ℚ)) = a + b := by
  rw [← Int.cast_add]; exact pyRound_intCast _

theorem foldl_preserve {α β : Type} (P : α → Prop) (f : α → β → α)
    (h : ∀ a b, P a → P (f a b)) :
    ∀ (l : List β) (init : α), P init → P (l.foldl f init) := by
  intro l
  induction l with
  | nil => intro init h0; simpa using h0
  | cons b t ih => intro init h0; exact ih _ (h _ _ h0)

theorem horizFold_inv (velx : ℚ) (hits : List PyRect) (st : ℚ × PyRect)
    (h0 : pyRound st.1 = st.2.x) :
    pyRound (hits.foldl (horizHitStep velx) st).1 = (hits.foldl (horizHitStep velx) st).2.x ∧
    (hits.foldl (horizHitStep velx) st).2.y = st.2.y ∧
    (hits.foldl (horizHitStep velx) st).2.w = st.2.w ∧
    (hits.foldl (horizHitStep velx) st).2.h = st.2.h := by
  refine foldl_preserve
    (fun s => pyRound s.1 = s.2.x ∧ s.2.y = st.2.y ∧ s.2.w = st.2.w ∧ s.2.h = st.2.h)
    (horizHitStep velx) ?_ hits st ⟨h0, rfl, rfl, rfl⟩
  intro a b hab
  obtain ⟨h1, h2, h3, h4⟩ := hab
  unfold horizHitStep
  split_ifs <;>
    simp [PyRect.setRight, PyRect.setLeft, pyRound_intCast, pyRound_int_sub, h2, h3, h4]

theorem vertFold_inv (hits : List PyRect) (st : VStep)
    (h0 : pyRound st.posy = st.rect.y) :
    pyRound (hits.foldl vertCollideStep st).posy = (hits.foldl vertCollideStep st).rect.y ∧
    (hits.foldl vertCollideStep st).rect.x = st.rect.x ∧
    (hits.foldl vertCollideStep st).rect.w = st.rect.w ∧
    (hits.foldl vertCollideStep st).rect.h = st.rect.h := by
  refine foldl_preserve
    (fun s => pyRound s.posy = s.rect.y ∧ s.rect.x = st.rect.x ∧
      s.rect.w = st.rect.w ∧ s.rect.h = st.rect.h)
    vertCollideStep ?_ hits st ⟨h0, rfl, rfl, rfl⟩
  intro a b hab
  obtain ⟨h1, h2, h3, h4⟩ := hab
  unfold vertCollideStep
  split_ifs <;>
    simp [PyRect.setBottom, PyRect.setTop, pyRound_intCast, pyRound_int_sub,
      pyRound_int_add, h1, h2, h3, h4]

theorem vertStep_sync (lv : Level) (r : PyRect) (vy py : ℚ) :
    pyRound (vertStep lv r vy py).posy = (vertStep lv r vy py).rect.y ∧
    (vertStep lv r vy py).rect.x = r.x ∧
    (vertStep lv r vy py).rect.w = r.w ∧
    (vertStep lv r vy py).rect.h = r.h := by
  unfold vertStep
  exact vertFold_inv _ _ rfl

theorem set_anim_phys (p : Player) (t : AnimTag) (dt speed : ℚ) :
    (p.set_anim t dt speed).rect = p.rect ∧
    (p.set_anim t dt speed).pos = p.pos ∧
    (p.set_anim t dt speed).vel = p.vel ∧
    (p.set_anim t dt speed).on_ground = p.on_ground ∧
    (p.set_anim t dt speed).facing = p.facing ∧
    (p.set_anim t dt speed).moving = p.moving ∧
    (p.set_anim t dt speed).jump_buffer_time = p.jump_buffer_time ∧
    (p.set_anim t dt speed).jump_buffer = p.jump_buffer ∧
    (p.set_anim t dt speed).coyote_time = p.coyote_time ∧
    (p.set_anim t dt speed).coyote_timer = p.coyote_timer ∧
    (p.set_anim t dt speed).weapon = p.weapon ∧
    (p.set_anim t dt speed).health = p.health ∧
    (p.set_anim t dt speed).max_health = p.max_health ∧
    (p.set_anim t dt speed).invuln_time = p.invuln_time := by
  cases t <;> unfold Player.set_anim Player.putAnim Player.getAnim <;>
    split_ifs <;> simp_all

theorem update_phys (p : Player) (dt : ℚ) (lv : Level) :
    (p.update dt lv).rect = (p.physStep dt lv).rect ∧
    (p.update dt lv).pos = (p.physStep dt lv).pos ∧
    (p.update dt lv).vel = (p.physStep dt lv).vel ∧
    (p.update dt lv).on_ground = (p.physStep dt lv).on_ground ∧
    (p.update dt lv).facing = (p.physStep dt lv).facing ∧
    (p.update dt lv).moving = (p.physStep dt lv).moving ∧
    (p.update dt lv).jump_buffer_time = (p.physStep dt lv).jump_buffer_time ∧
    (p.update dt lv).jump_buffer = (p.physStep dt lv).jump_buffer ∧
    (p.update dt lv).coyote_time = (p.physStep dt lv).coyote_time ∧
    (p.update dt lv).coyote_timer = (p.physStep dt lv).coyote_timer ∧
    (p.update dt lv).weapon = (p.physStep dt lv).weapon ∧
    (p.update dt lv).health = (p.physStep dt lv).health ∧
    (p.update dt lv).max_health = (p.physStep dt lv).max_health ∧
    (p.update dt lv).invuln_time = (p.physStep dt lv).invuln_time := by
  simp only [Player.update]
  split_ifs with h1 h2
  · exact set_anim_phys (p.physStep dt lv) .jump dt 1
  · exact set_anim_phys (p.physStep dt lv) .run dt 1
  · exact set_anim_phys (p.physStep dt lv) .idle dt 1

theorem player_update_sync (p : Player) (dt : ℚ) (lv : Level) :
    pyRound (p.update dt lv).pos.x = (p.update dt lv).rect.x ∧
    pyRound (p.update dt lv).pos.y = (p.update dt lv).rect.y := by
  obtain ⟨hrect, hpos, -⟩ := update_phys p dt lv
  rw [hrect, hpos]
  simp only [Player.physStep]
  have hh := horizFold_inv p.vel.x
    (lv.get_solid_hits { p.rect with x := pyRound (p.pos.x + p.vel.x * dt) })
    (p.pos.x + p.vel.x * dt, { p.rect with x := pyRound (p.pos.x + p.vel.x * dt) }) rfl
  have hv := vertStep_sync lv
    ((lv.get_solid_hits { p.rect with x := pyRound (p.pos.x + p.vel.x * dt) }).foldl
      (horizHitStep p.vel.x)
      (p.pos.x + p.vel.x * dt, { p.rect with x := pyRound (p.pos.x + p.vel.x * dt) })).2
    (p.vel.y + settings.GRAVITY * dt) (p.pos.y + (p.vel.y + settings.GRAVITY * dt) * dt)
  refine ⟨?_, hv.1⟩
  rw [hv.2.1]
  exact hh.1

theorem enemy_update_sync (e : NormalEnemy) (dt : ℚ) (lv : Level) :
    pyRound (e.update dt lv).pos.x = (e.update dt lv).rect.x ∧
    pyRound (e.update dt lv).pos.y = (e.update dt lv).rect.y := by
  simp only [NormalEnemy.update]
  by_cases hc :
      lv.rect_collides_solid { e.rect with x := pyRound (e.pos.x + e.vel.x * dt) } = true
  · simp only [hc, if_true]
    refine ⟨?_, (vertStep_sync lv _ _ _).1⟩
    rw [(vertStep_sync lv _ _ _).2.1]
  · rw [Bool.not_eq_true] at hc
    simp only [hc, Bool.false_eq_true, if_false]
    refine ⟨?_, (vertStep_sync lv _ _ _).1⟩
    rw [(vertStep_sync lv _ _ _).2.1]

theorem boss_update_sync (b : BossEnemy) (dt : ℚ) (lv : Level) (pr : PyRect)
    (bl : List Bullet) :
    pyRound (b.update dt lv pr bl).1.pos.x = (b.update dt lv pr bl).1.rect.x ∧
    pyRound (b.update dt lv pr bl).1.pos.y = (b.update dt lv pr bl).1.rect.y := by
  simp only [BossEnemy.update]
  constructor
  · split_ifs <;> rw [(vertStep_sync lv _ _ _).2.1]
  · split_ifs <;> exact (vertStep_sync lv _ _ _).1

/-- Claim C9: one Bullet.update tick destroys the projectile exactly when
its accumulated alive time reaches its lifetime (even with no overlap) or
its rect, after the tick's move, overlaps a solid tile (regardless of
remaining lifetime); a projectile meeting neither condition stays alive
for the next tick. -/
theorem C9_theorem : ∀ (b : Bullet) (dt : ℚ) (level : Level),
    ((b.update dt level).2 = false ↔
      (b.lifetime ≤ b.alive_time + dt ∨
        level.rect_collides_solid
          { b.rect with x := b.rect.x + pyTrunc (b.vel.x * dt),
                        y := b.rect.y + pyTrunc (b.vel.y * dt) } = true)) := by
  intro b dt level
  simp only [Bullet.update]
  split_ifs with h1 h2 <;> simp_all

theorem enemy_update_flip (e : NormalEnemy) (dt : ℚ) (lv : Level) :
    (e.update dt lv).vel.x =
      (if lv.rect_collides_solid { e.rect with x := pyRound (e.pos.x + e.vel.x * dt) }
        then -e.vel.x else e.vel.x) ∧
    (e.update dt lv).facing =
      (if lv.rect_collides_solid { e.rect with x := pyRound (e.pos.x + e.vel.x * dt) }
        then -e.facing else e.facing) := by
  simp only [NormalEnemy.update]
  split_ifs <;> simp_all

theorem enemy_runUpdates_speed (steps : List (ℚ × Level)) :
    ∀ (e : NormalEnemy), (e.vel.x = 80 ∨ e.vel.x = -80) →
      ((e.runUpdates steps).vel.x = 80 ∨ (e.runUpdates steps).vel.x = -80) := by
  induction steps with
  | nil => intro e h; simpa [NormalEnemy.runUpdates] using h
  | cons s t ih =>
    intro e h
    have hstep := (enemy_update_flip e s.1 s.2).1
    have hnext : (e.update s.1 s.2).vel.x = 80 ∨ (e.update s.1 s.2).vel.x = -80 := by
      rw [hstep]; split_ifs <;> rcases h with h | h <;> simp [h]
    have hrw : e.runUpdates (s :: t) = (e.update s.1 s.2).runUpdates t := by
      simp [NormalEnemy.runUpdates]
    rw [hrw]
    exact ih _ hnext

/-- Claim C2 counterexample: the projectile carries no float position and
moves its rect by int(vel*dt); already after one tick of dt=1/100 its rect
origin (105) differs from the rounding of a float-tracked position (106),
so the claimed float/rect synchronisation invariant does not apply to
projectiles. -/
theorem C2_counterexample :
    (flightBullet.update (1/100) emptyLevel).1.rect.x = 105 ∧
    floatTrackedRectX (flightBullet.rect.x : ℚ) flightBullet.vel.x (1/100) = 106 ∧
    ¬((flightBullet.update (1/100) emptyLevel).1.rect.x =
        floatTrackedRectX (flightBullet.rect.x : ℚ) flightBullet.vel.x (1/100)) := by
  refine ⟨?_, ?_, ?_⟩
  · norm_num [Bullet.update, flightBullet, pyTrunc, settings.BULLET_SPEED,
      settings.BULLET_LIFETIME, emptyLevel, Level.rect_collides_solid]
  · norm_num [floatTrackedRectX, flightBullet, pyRound, settings.BULLET_SPEED]
  · norm_num [Bullet.update, flightBullet, pyTrunc, pyRound, floatTrackedRectX,
      settings.BULLET_SPEED, settings.BULLET_LIFETIME, emptyLevel, Level.rect_collides_solid]

/-- Claim C1 counterexample: a player one step from a wall, walking right
at 260 px/s with dt=1/100, ends the tick with pos.x = 32 (the rect snapped
to the tile edge and pos resynced from it, not the pre-step 163/5) and
with vel.x still 260 (not zeroed), contradicting the claimed
revert-the-delta-and-zero-velocity resolution for the player. -/
theorem C1_counterexample :
    (rightWalkingPlayer.update (1/100) oneTileLevel).pos.x = 32 ∧
    (rightWalkingPlayer.update (1/100) oneTileLevel).vel.x = 260 ∧
    ¬((rightWalkingPlayer.update (1/100) oneTileLevel).pos.x = rightWalkingPlayer.pos.x ∧
      (rightWalkingPlayer.update (1/100) oneTileLevel).vel.x = 0) := by
  obtain ⟨-, hpos, hvel, -⟩ := update_phys rightWalkingPlayer (1/100) oneTileLevel
  have hx : (rightWalkingPlayer.physStep (1/100) oneTileLevel).pos.x = 32 := by
    norm_num [Player.physStep, rightWalkingPlayer, oneTileLevel, Player.make,
      Weapon.make, Weapon.update, Animation.make, decayTimer,
      settings.PLAYER_SPEED, settings.GRAVITY, settings.JUMP_SPEED,
      settings.PLAYER_MAX_HEALTH, Level.get_solid_hits, PyRect.colliderect,
      horizHitStep, PyRect.setRight, PyRect.setLeft, vertStep, vertCollideStep,
      PyRect.setBottom, PyRect.setTop, groundProbe, PyRect.move, pyRound,
      List.filter, List.foldl, Level.rect_collides_solid, List.any, List.isEmpty,
      PyRect.left, PyRect.right, PyRect.top, PyRect.bottom]
  have hv : (rightWalkingPlayer.physStep (1/100) oneTileLevel).vel.x = 260 := by
    norm_num [Player.physStep, rightWalkingPlayer, oneTileLevel, Player.make,
      Weapon.make, Weapon.update, Animation.make, decayTimer,
      settings.PLAYER_SPEED, settings.GRAVITY, settings.JUMP_SPEED,
      settings.PLAYER_MAX_HEALTH, Level.get_solid_hits, PyRect.colliderect,
      horizHitStep, PyRect.setRight, PyRect.setLeft, vertStep, vertCollideStep,
      PyRect.setBottom, PyRect.setTop, groundProbe, PyRect.move, pyRound,
      List.filter, List.foldl, Level.rect_collides_solid, List.any, List.isEmpty,
      PyRect.left, PyRect.right, PyRect.top, PyRect.bottom]
  refine ⟨by rw [hpos, hx], by rw [hvel, hv], ?_⟩
  rintro ⟨ha, -⟩
  rw [hpos, hx] at ha
  norm_num [rightWalkingPlayer] at ha

theorem horizFold_zero (hits : List PyRect) :
    ∀ st : ℚ × PyRect, (hits.foldl (horizHitStep 0) st).2 = st.2 := by
  induction hits with
  | nil => intro st; rfl
  | cons t rest ih =>
    intro st
    have hstep : horizHitStep 0 st t = (((st.2.x : ℤ) : ℚ), st.2) := by
      simp [horizHitStep]
    show (rest.foldl (horizHitStep 0) (horizHitStep 0 st t)).2 = st.2
    rw [hstep, ih]

theorem player_velx_unchanged (p : Player) (dt : ℚ) (lv : Level) :
    (p.update dt lv).vel.x = p.vel.x := by
  obtain ⟨-, -, hvel, -⟩ := update_phys p dt lv
  rw [hvel]
  simp only [Player.physStep]
  split_ifs <;> rfl

theorem player_horizontal_snap (p : Player) (dt : ℚ) (lv : Level)
    (hs : List PyRect) (tile : PyRect)
    (hh : lv.get_solid_hits { p.rect with x := pyRound (p.pos.x + p.vel.x * dt) }
      = hs ++ [tile]) :
    (p.update dt lv).pos.x = (((p.update dt lv).rect.x : ℤ) : ℚ) ∧
    (p.update dt lv).rect.x =
      (if 0 < p.vel.x then tile.left - p.rect.w
       else if p.vel.x < 0 then tile.right
       else pyRound (p.pos.x + p.vel.x * dt)) := by
  obtain ⟨hrect, hpos, -⟩ := update_phys p dt lv
  rw [hrect, hpos]
  simp only [Player.physStep, hh]
  rw [List.foldl_append]
  have hvx := (vertStep_sync lv
    (horizHitStep p.vel.x
      (hs.foldl (horizHitStep p.vel.x)
        (p.pos.x + p.vel.x * dt, { p.rect with x := pyRound (p.pos.x + p.vel.x * dt) }))
      tile).2
    (p.vel.y + settings.GRAVITY * dt) (p.pos.y + (p.vel.y + settings.GRAVITY * dt) * dt)).2.1
  constructor
  · show (List.foldl (horizHitStep p.vel.x) _ [tile]).1 = _
    rw [show (List.foldl (horizHitStep p.vel.x)
      (hs.foldl (horizHitStep p.vel.x)
        (p.pos.x + p.vel.x * dt, { p.rect with x := pyRound (p.pos.x + p.vel.x * dt) })) [tile])
      = horizHitStep p.vel.x
          (hs.foldl (horizHitStep p.vel.x)
            (p.pos.x + p.vel.x * dt, { p.rect with x := pyRound (p.pos.x + p.vel.x * dt) }))
          tile from rfl]
    rw [hvx]
    rfl
  · show (vertStep lv (List.foldl (horizHitStep p.vel.x) _ [tile]).2 _ _).rect.x = _
    rw [show (List.foldl (horizHitStep p.vel.x)
      (hs.foldl (horizHitStep p.vel.x)
        (p.pos.x + p.vel.x * dt, { p.rect with x := pyRound (p.pos.x + p.vel.x * dt) })) [tile])
      = horizHitStep p.vel.x
          (hs.foldl (horizHitStep p.vel.x)
            (p.pos.x + p.vel.x * dt, { p.rect with x := pyRound (p.pos.x + p.vel.x * dt) }))
          tile from rfl]
    rw [hvx]
    have hw := (horizFold_inv p.vel.x hs
      (p.pos.x + p.vel.x * dt, { p.rect with x := pyRound (p.pos.x + p.vel.x * dt) })
      rfl).2.2.1
    split_ifs with h1 h2
    · simp only [horizHitStep, if_pos h1, PyRect.setRight, PyRect.left]
      rw [hw]
    · simp only [horizHitStep, if_neg h1, if_pos h2, PyRect.setLeft, PyRect.right]
    · have hz : p.vel.x = 0 := le_antisymm (not_lt.mp h1) (not_lt.mp h2)
      simp only [horizHitStep, if_neg h1, if_neg h2]
      rw [hz, horizFold_zero]

/-- Claim C1 (amended): on a colliding horizontal step, the patrol enemy
reverts pos.x by exactly the delta just applied, re-derives rect.x, negates
vel.x and flips facing; the boss reverts pos.x the same way and zeroes
vel.x; the player does NOT revert and never changes vel.x in update:
iterating over every overlapping tile, it snaps rect.right to the tile's
left edge when moving right and rect.left to the tile's right edge when
moving left (so the last overlapping tile processed fixes rect.x, and with
vel.x = 0 the rect stays at the rounded step position), and it resyncs
pos.x = rect.x after the loop whenever at least one tile overlapped. -/
theorem C1_theorem :
    (∀ (e : NormalEnemy) (dt : ℚ) (lv : Level),
      lv.rect_collides_solid { e.rect with x := pyRound (e.pos.x + e.vel.x * dt) } = true →
      (e.update dt lv).pos.x = e.pos.x ∧
      (e.update dt lv).vel.x = -e.vel.x ∧
      (e.update dt lv).facing = -e.facing) ∧
    (∀ (b : BossEnemy) (dt : ℚ) (lv : Level) (pr : PyRect) (bl : List Bullet) (d : ℤ),
      d = (if b.rect.centerx < pr.centerx then 1 else -1) →
      lv.rect_collides_solid
        { b.rect with x := pyRound (b.pos.x + b.speed * (d : ℚ) * dt) } = true →
      (b.update dt lv pr bl).1.pos.x = b.pos.x ∧
      (b.update dt lv pr bl).1.vel.x = 0) ∧
    (∀ (p : Player) (dt : ℚ) (lv : Level), (p.update dt lv).vel.x = p.vel.x) ∧
    (∀ (p : Player) (dt : ℚ) (lv : Level) (hs : List PyRect) (tile : PyRect),
      lv.get_solid_hits { p.rect with x := pyRound (p.pos.x + p.vel.x * dt) }
        = hs ++ [tile] →
      (p.update dt lv).pos.x = (((p.update dt lv).rect.x : ℤ) : ℚ) ∧
      (p.update dt lv).rect.x =
        (if 0 < p.vel.x then tile.left - p.rect.w
         else if p.vel.x < 0 then tile.right
         else pyRound (p.pos.x + p.vel.x * dt))) := by
  refine ⟨?_, ?_, player_velx_unchanged, player_horizontal_snap⟩
  · intro e dt lv hc
    simp only [NormalEnemy.update, hc, if_true]
    refine ⟨by ring, by simp, by simp⟩
  · intro b dt lv pr bl d hd hc
    subst hd
    simp only [BossEnemy.update, hc, if_true]
    constructor
    · ring
    · trivial

/-- Claim C1 witness: the four parts of C1_theorem instantiated at
concrete scenarios - a patrol enemy at a wall, the chasing boss at a wall,
and the player colliding while walking right (one tile and two tiles) and
while walking left - with every hypothesis discharged by computation. -/
theorem C1_witness :
    ((patrolEnemyNearWall.update (1/100) leftTileLevel).pos.x = patrolEnemyNearWall.pos.x ∧
     (patrolEnemyNearWall.update (1/100) leftTileLevel).vel.x = -patrolEnemyNearWall.vel.x ∧
     (patrolEnemyNearWall.update (1/100) leftTileLevel).facing = -patrolEnemyNearWall.facing) ∧
    ((bossNearWall.update (1/100) oneTileLevel playerRectRight []).1.pos.x = bossNearWall.pos.x ∧
     (bossNearWall.update (1/100) oneTileLevel playerRectRight []).1.vel.x = 0) ∧
    ((rightWalkingPlayer.update (1/100) oneTileLevel).vel.x = rightWalkingPlayer.vel.x) ∧
    ((rightWalkingPlayer.update (1/100) oneTileLevel).pos.x =
        (((rightWalkingPlayer.update (1/100) oneTileLevel).rect.x : ℤ) : ℚ) ∧
     (rightWalkingPlayer.update (1/100) oneTileLevel).rect.x =
       (if 0 < rightWalkingPlayer.vel.x
        then (⟨64, 0, 16, 16⟩ : PyRect).left - rightWalkingPlayer.rect.w
        else if rightWalkingPlayer.vel.x < 0 then (⟨64, 0, 16, 16⟩ : PyRect).right
        else pyRound (rightWalkingPlayer.pos.x + rightWalkingPlayer.vel.x * (1/100)))) ∧
    ((leftWalkingPlayer.update (1/100) leftWallLevel).pos.x =
        (((leftWalkingPlayer.update (1/100) leftWallLevel).rect.x : ℤ) : ℚ) ∧
     (leftWalkingPlayer.update (1/100) leftWallLevel).rect.x =
       (if 0 < leftWalkingPlayer.vel.x
        then (⟨96, 0, 16, 16⟩ : PyRect).left - leftWalkingPlayer.rect.w
        else if leftWalkingPlayer.vel.x < 0 then (⟨96, 0, 16, 16⟩ : PyRect).right
        else pyRound (leftWalkingPlayer.pos.x + leftWalkingPlayer.vel.x * (1/100)))) ∧
    ((rightWalkingPlayer.update (1/100) twoTileLevel).pos.x =
        (((rightWalkingPlayer.update (1/100) twoTileLevel).rect.x : ℤ) : ℚ) ∧
     (rightWalkingPlayer.update (1/100) twoTileLevel).rect.x =
       (if 0 < rightWalkingPlayer.vel.x
        then (⟨64, 0, 16, 16⟩ : PyRect).left - rightWalkingPlayer.rect.w
        else if rightWalkingPlayer.vel.x < 0 then (⟨64, 0, 16, 16⟩ : PyRect).right
        else pyRound (rightWalkingPlayer.pos.x + rightWalkingPlayer.vel.x * (1/100)))) := by
  refine ⟨C1_theorem.1 patrolEnemyNearWall (1/100) leftTileLevel ?_,
    C1_theorem.2.1 bossNearWall (1/100) oneTileLevel playerRectRight [] 1 ?_ ?_,
    C1_theorem.2.2.1 rightWalkingPlayer (1/100) oneTileLevel,
    C1_theorem.2.2.2 rightWalkingPlayer (1/100) oneTileLevel [] ⟨64, 0, 16, 16⟩ ?_,
    C1_theorem.2.2.2 leftWalkingPlayer (1/100) leftWallLevel [] ⟨96, 0, 16, 16⟩ ?_,
    C1_theorem.2.2.2 rightWalkingPlayer (1/100) twoTileLevel [⟨48, 0, 16, 16⟩]
      ⟨64, 0, 16, 16⟩ ?_⟩
  · norm_num [leftTileLevel, patrolEnemyNearWall, NormalEnemy.make,
      Level.rect_collides_solid, List.any, PyRect.colliderect, pyRound]
  · norm_num [bossNearWall, playerRectRight, BossEnemy.make, PyRect.centerx]
  · norm_num [bossNearWall, BossEnemy.make, oneTileLevel,
      Level.rect_collides_solid, List.any, PyRect.colliderect, pyRound]
  · norm_num [rightWalkingPlayer, oneTileLevel, Level.get_solid_hits, List.filter,
      PyRect.colliderect, pyRound, settings.PLAYER_SPEED]
  · norm_num [leftWalkingPlayer, leftWallLevel, Level.get_solid_hits, List.filter,
      PyRect.colliderect, pyRound, settings.PLAYER_SPEED]
  · norm_num [rightWalkingPlayer, twoTileLevel, Level.get_solid_hits, List.filter,
      PyRect.colliderect, pyRound, settings.PLAYER_SPEED]

theorem Animation.update_of_finished (a : Animation) (dt speed : ℚ)
    (h : a.finished = true) : a.update dt speed = a := by
  simp [Animation.update, h]

theorem Animation.update_of_nonpos (a : Animation) (dt speed : ℚ)
    (hs : speed ≤ 0) : a.update dt speed = a := by
  by_cases hf : a.finished <;> simp [Animation.update, hf, max_eq_left hs]

theorem Animation.update_of_pos (a : Animation) (dt speed : ℚ) (h : a.finished = false)
    (hs : 0 < speed) :
    a.update dt speed =
      (if a.frame_duration ≤ a.timer + min dt (1/30) * speed then
        (if a.frames ≤ a.index + 1 then
          (if a.loop then
            { a with timer := a.timer + min dt (1/30) * speed - a.frame_duration,
                     index := 0 }
           else
            { a with timer := a.timer + min dt (1/30) * speed - a.frame_duration,
                     index := a.frames - 1, finished := true })
         else
          { a with timer := a.timer + min dt (1/30) * speed - a.frame_duration,
                   index := a.index + 1 })
       else { a with timer := a.timer + min dt (1/30) * speed }) := by
  simp [Animation.update, h, max_eq_right hs.le, hs.ne']

theorem effInc_of_pos (dt speed : ℚ) (hs : 0 < speed) :
    effInc dt speed = min dt (1/30) * speed := by
  simp [effInc, max_eq_right hs.le]

theorem effInc_of_nonpos (dt speed : ℚ) (hs : speed ≤ 0) : effInc dt speed = 0 := by
  simp [effInc, max_eq_left hs]

theorem effInc_nonneg (dt speed : ℚ) (hdt : 0 ≤ dt) : 0 ≤ effInc dt speed :=
  mul_nonneg (le_min hdt (by norm_num)) (le_max_left _ _)

theorem Animation.update_consts (a : Animation) (dt speed : ℚ) :
    (a.update dt speed).frames = a.frames ∧
    (a.update dt speed).frame_duration = a.frame_duration ∧
    (a.update dt speed).loop = a.loop := by
  by_cases hf : a.finished
  · rw [Animation.update_of_finished a dt speed hf]; exact ⟨rfl, rfl, rfl⟩
  · rcases le_or_lt speed 0 with hs | hs
    · rw [Animation.update_of_nonpos a dt speed hs]; exact ⟨rfl, rfl, rfl⟩
    · rw [Animation.update_of_pos a dt speed (by simpa using hf) hs]
      split_ifs <;> exact ⟨rfl, rfl, rfl⟩

theorem animWF_step (a : Animation) (dt speed : ℚ) (hdt : 0 ≤ dt)
    (h1 : a.index < a.frames) (h2 : 0 ≤ a.timer) :
    (a.update dt speed).index < a.frames ∧ 0 ≤ (a.update dt speed).timer := by
  by_cases hf : a.finished
  · rw [Animation.update_of_finished a dt speed hf]; exact ⟨h1, h2⟩
  · rcases le_or_lt speed 0 with hs | hs
    · rw [Animation.update_of_nonpos a dt speed hs]; exact ⟨h1, h2⟩
    · rw [Animation.update_of_pos a dt speed (by simpa using hf) hs]
      have he : 0 ≤ min dt (1/30) * speed := mul_nonneg (le_min hdt (by norm_num)) hs.le
      split_ifs with hT hN hL
      · exact ⟨by simp; omega, by simp; linarith⟩
      · exact ⟨by simp; omega, by simp; linarith⟩
      · exact ⟨by simp; omega, by simp; linarith⟩
      · exact ⟨by simpa using h1, by simp; linarith⟩

theorem animTimer_step (a : Animation) (dt speed : ℚ)
    (he : effInc dt speed ≤ a.frame_duration) (h2 : a.timer < a.frame_duration) :
    (a.update dt speed).timer < a.frame_duration := by
  by_cases hf : a.finished
  · rw [Animation.update_of_finished a dt speed hf]; exact h2
  · rcases le_or_lt speed 0 with hs | hs
    · rw [Animation.update_of_nonpos a dt speed hs]; exact h2
    · rw [effInc_of_pos dt speed hs] at he
      rw [Animation.update_of_pos a dt speed (by simpa using hf) hs]
      split_ifs with hT hN hL <;> simp <;> linarith

theorem anim_run_consts (steps : List (ℚ × ℚ)) :
    ∀ a : Animation, (a.runUpdates steps).frames = a.frames ∧
      (a.runUpdates steps).frame_duration = a.frame_duration ∧
      (a.runUpdates steps).loop = a.loop := by
  induction steps with
  | nil => intro a; exact ⟨rfl, rfl, rfl⟩
  | cons s t ih =>
    intro a
    have h1 := Animation.update_consts a s.1 s.2
    have h2 := ih (a.update s.1 s.2)
    have hrw : a.runUpdates (s :: t) = (a.update s.1 s.2).runUpdates t := by
      simp [Animation.runUpdates]
    rw [hrw]
    exact ⟨h2.1.trans h1.1, h2.2.1.trans h1.2.1, h2.2.2.trans h1.2.2⟩

theorem animWF_run (steps : List (ℚ × ℚ)) :
    ∀ a : Animation, (∀ s ∈ steps, 0 ≤ s.1) → a.index < a.frames → 0 ≤ a.timer →
      ((a.runUpdates steps).index < a.frames ∧ 0 ≤ (a.runUpdates steps).timer) := by
  induction steps with
  | nil => intro a _ h1 h2; exact ⟨h1, h2⟩
  | cons s t ih =>
    intro a hst h1 h2
    have hs := hst s (List.mem_cons_self s t)
    have hstep := animWF_step a s.1 s.2 hs h1 h2
    have hrw : a.runUpdates (s :: t) = (a.update s.1 s.2).runUpdates t := by
      simp [Animation.runUpdates]
    rw [hrw]
    have hfr := (Animation.update_consts a s.1 s.2).1
    have := ih (a.update s.1 s.2) (fun x hx => hst x (List.mem_cons_of_mem s hx))
      (hfr ▸ hstep.1) hstep.2
    exact ⟨this.1.trans_le (le_of_eq hfr), this.2⟩

theorem animTimer_run (steps : List (ℚ × ℚ)) :
    ∀ a : Animation, (∀ s ∈ steps, effInc s.1 s.2 ≤ a.frame_duration) →
      a.timer < a.frame_duration →
      (a.runUpdates steps).timer < a.frame_duration := by
  induction steps with
  | nil => intro a _ h2; exact h2
  | cons s t ih =>
    intro a hst h2
    have hstep := animTimer_step a s.1 s.2 (hst s (List.mem_cons_self s t)) h2
    have hrw : a.runUpdates (s :: t) = (a.update s.1 s.2).runUpdates t := by
      simp [Animation.runUpdates]
    rw [hrw]
    have hfd := (Animation.update_consts a s.1 s.2).2.1
    have := ih (a.update s.1 s.2) (fun x hx => hfd ▸ hst x (List.mem_cons_of_mem s hx))
      (by rw [hfd]; exact hstep)
    rwa [hfd] at this

/-- Claim C5 (amended): for every animation built by the constructor and
every sequence of updates with non-negative dt and arbitrary speed, the
frame index stays in [0, frameCount-1] and the timer stays non-negative;
the upper bound timer < frameDuration additionally holds whenever every
call's effective increment min(dt,1/30)*max(speed,0) is at most
frameDuration (a large increment deliberately accumulates, see
C5_counterexample). -/
theorem C5_theorem :
    (∀ (n : ℕ) (d : ℚ) (lp : Bool) (steps : List (ℚ × ℚ)),
      0 < n → (∀ s ∈ steps, 0 ≤ s.1) →
      ((Animation.make n d lp).runUpdates steps).index < n ∧
      0 ≤ ((Animation.make n d lp).runUpdates steps).timer) ∧
    (∀ (n : ℕ) (d : ℚ) (lp : Bool) (steps : List (ℚ × ℚ)),
      (∀ s ∈ steps, effInc s.1 s.2 ≤ (Animation.make n d lp).frame_duration) →
      ((Animation.make n d lp).runUpdates steps).timer <
        (Animation.make n d lp).frame_duration) := by
  constructor
  · intro n d lp steps hn hsteps
    exact animWF_run steps (Animation.make n d lp) hsteps hn le_rfl
  · intro n d lp steps hsteps
    refine animTimer_run steps (Animation.make n d lp) hsteps ?_
    show (0 : ℚ) < max (1/1000) d
    exact lt_max_of_lt_left (by norm_num)

/-- Claim C5 witness: both parts of C5_theorem instantiated at a concrete
4-frame looping animation fed three 1/60 s updates, hypotheses discharged
by computation. -/
theorem C5_witness :
    ((Animation.make 4 (1/10) true).runUpdates [(1/60, 1), (1/60, 1), (1/60, 1)]).index < 4 ∧
    0 ≤ ((Animation.make 4 (1/10) true).runUpdates [(1/60, 1), (1/60, 1), (1/60, 1)]).timer ∧
    ((Animation.make 4 (1/10) true).runUpdates [(1/60, 1), (1/60, 1), (1/60, 1)]).timer <
      (Animation.make 4 (1/10) true).frame_duration := by
  have h1 := C5_theorem.1 4 (1/10) true [(1/60, 1), (1/60, 1), (1/60, 1)]
    (by norm_num) (by intro s hs; fin_cases hs <;> norm_num)
  have h2 := C5_theorem.2 4 (1/10) true [(1/60, 1), (1/60, 1), (1/60, 1)]
    (by intro s hs; fin_cases hs <;> norm_num [effInc, Animation.make])
  exact ⟨h1.1, h1.2, h2⟩

/-- Claim C5 counterexample: an animation with the minimum 1 ms frame
duration fed a single 1/30 s update ends with timer = 97/3000, far above
its frame duration, so the claimed unconditional invariant
timer ∈ [0, frameDuration) is false. -/
theorem C5_counterexample :
    ((Animation.make 3 (1/1000) true).update (1/30) 1).timer = 97/3000 ∧
    ¬(((Animation.make 3 (1/1000) true).update (1/30) 1).timer <
        (Animation.make 3 (1/1000) true).frame_duration) := by
  constructor
  · norm_num [Animation.make, Animation.update]
  · norm_num [Animation.make, Animation.update]

theorem animInv_step (n : ℕ) (d s : ℚ) (a : Animation) (dt speed : ℚ)
    (hdt : 0 ≤ dt) (he : effInc dt speed ≤ d) (h : AnimInv n d s a) :
    AnimInv n d (s + effInc dt speed) (a.update dt speed) := by
  obtain ⟨hfr, hfd, hlp, hrest⟩ := h
  by_cases hf : a.finished
  · rw [Animation.update_of_finished a dt speed hf]
    refine ⟨hfr, hfd, hlp, ?_⟩
    rw [if_pos hf] at hrest ⊢
    exact ⟨hrest.1, hrest.2.trans (le_add_of_nonneg_right (effInc_nonneg dt speed hdt))⟩
  · have hf' : a.finished = false := by simpa using hf
    rw [if_neg (by simp [hf'])] at hrest
    obtain ⟨hidx, htim, ht0, htd⟩ := hrest
    have hd : (0 : ℚ) < d := ht0.trans_lt htd
    rcases le_or_lt speed 0 with hs | hs
    · rw [Animation.update_of_nonpos a dt speed hs, effInc_of_nonpos dt speed hs]
      refine ⟨hfr, hfd, hlp, ?_⟩
      rw [if_neg (by simp [hf'])]
      exact ⟨hidx, by rw [htim]; ring, ht0, htd⟩
    · have he' : min dt (1/30) * speed ≤ d := by
        rw [← effInc_of_pos dt speed hs]; exact he
      have he0 : 0 ≤ min dt (1/30) * speed := by
        rw [← effInc_of_pos dt speed hs]; exact effInc_nonneg dt speed hdt
    
      rw [Animation.update_of_pos a dt speed hf' hs, effInc_of_pos dt speed hs, hfd]
      split_ifs with hT hN hL
      · rw [hlp] at hL; exact absurd hL (by simp)
      · refine ⟨hfr, rfl, hlp, ?_⟩
        rw [if_pos rfl]
        have hn1 : a.index = n - 1 := by omega
        have hnpos : 1 ≤ n := by omega
        have hcast : ((a.index : ℚ)) = (n : ℚ) - 1 := by
          rw [hn1]; push_cast [Nat.cast_sub hnpos]; ring
        constructor
        · simp [hfr]
        · have : s = a.timer + d * (a.index : ℚ) := by rw [htim]; ring
          rw [this, hcast]
          have hTd : d ≤ a.timer + min dt (1/30) * speed := hT
          nlinarith
      · refine ⟨hfr, rfl, hlp, ?_⟩
        rw [if_neg (by simp [hf'])]
        have hidx' : a.index + 1 < n := by omega
        refine ⟨hidx', ?_, by linarith, by linarith⟩
        rw [htim]
        push_cast
        ring
      · refine ⟨hfr, rfl, hlp, ?_⟩
        rw [if_neg (by simp [hf'])]
        refine ⟨hidx, ?_, by linarith, by linarith⟩
        rw [htim]
        ring

theorem animInv_run (n : ℕ) (d : ℚ) (steps : List (ℚ × ℚ)) :
    ∀ (a : Animation) (s : ℚ),
      (∀ st ∈ steps, 0 ≤ st.1 ∧ effInc st.1 st.2 ≤ d) →
      AnimInv n d s a →
      AnimInv n d (s + (steps.map (fun st => effInc st.1 st.2)).sum)
        (a.runUpdates steps) := by
  induction steps with
  | nil => intro a s _ h; simpa [Animation.runUpdates] using h
  | cons st t ih =>
    intro a s hsteps h
    have hst := hsteps st (List.mem_cons_self st t)
    have hstep := animInv_step n d s a st.1 st.2 hst.1 hst.2 h
    have hrw : a.runUpdates (st :: t) = (a.update st.1 st.2).runUpdates t := by
      simp [Animation.runUpdates]
    rw [hrw]
    have hrec := ih (a.update st.1 st.2) (s + effInc st.1 st.2)
      (fun x hx => hsteps x (List.mem_cons_of_mem st hx)) hstep
    rw [List.map_cons, List.sum_cons, ← add_assoc]
    exact hrec

/-- Claim C4 (amended): a fresh non-looping animation with n frames
finishes exactly when the accumulated effective elapsed time reaches
n * frameDuration (not (n-1) * frameDuration), provided each update's
effective increment is at most one frame duration (the code advances at
most one frame per call); once finished the index is pinned at n-1 and
every further update call is a no-op until reset. -/
theorem C4_theorem :
    (∀ (n : ℕ) (d : ℚ) (steps : List (ℚ × ℚ)),
      0 < n →
      (∀ s ∈ steps,
        0 ≤ s.1 ∧ effInc s.1 s.2 ≤ (Animation.make n d false).frame_duration) →
      (((Animation.make n d false).runUpdates steps).finished = true ↔
        (n : ℚ) * (Animation.make n d false).frame_duration ≤
          (steps.map (fun s => effInc s.1 s.2)).sum) ∧
      (((Animation.make n d false).runUpdates steps).finished = true →
        ((Animation.make n d false).runUpdates steps).index = n - 1)) ∧
    (∀ (a : Animation) (dt speed : ℚ), a.finished = true → a.update dt speed = a) := by
  constructor
  · intro n d steps hn hsteps
    have hd : (0 : ℚ) < max (1/1000) d := lt_max_of_lt_left (by norm_num)
    have hinv0 : AnimInv n (max (1/1000) d) 0 (Animation.make n d false) := by
      refine ⟨rfl, rfl, rfl, ?_⟩
      rw [if_neg (by simp [Animation.make])]
      refine ⟨hn, ?_, le_rfl, hd⟩
      show (0 : ℚ) = 0 - max (1/1000) d * ((0 : ℕ) : ℚ)
      push_cast
      ring
    have hrun := animInv_run n (max (1/1000) d) steps (Animation.make n d false) 0
      hsteps hinv0
    rw [zero_add] at hrun
    obtain ⟨hfr, hfd, hlp, hrest⟩ := hrun
    constructor
    · constructor
      · intro hfin
        rw [if_pos hfin] at hrest
        exact hrest.2
      · intro hsum
        by_contra hnf
        have hnf' : ((Animation.make n d false).runUpdates steps).finished = false := by
          simpa using hnf
        rw [if_neg (by simp [hnf'])] at hrest
        obtain ⟨hidx, htim, ht0, htd⟩ := hrest
        have hle : (((Animation.make n d false).runUpdates steps).index : ℚ) + 1 ≤ (n : ℚ) := by
          exact_mod_cast hidx
        have hmul : (1/1000 ⊔ d) * ((((Animation.make n d false).runUpdates steps).index : ℚ) + 1) ≤
            (1/1000 ⊔ d) * (n : ℚ) :=
          mul_le_mul_of_nonneg_left hle hd.le
        rw [show (Animation.make n d false).frame_duration = 1/1000 ⊔ d from rfl] at hsum
        nlinarith [hmul]
    · intro hfin
      rw [if_pos hfin] at hrest
      exact hrest.1
  · exact fun a dt speed h => Animation.update_of_finished a dt speed h

/-- Claim C4 witness: C4_theorem instantiated at a concrete 2-frame,
1/100 s non-looping animation fed two 1/100 s updates, which is exactly
enough accumulated time to finish; hypotheses discharged by
computation. -/
theorem C4_witness :
    (((Animation.make 2 (1/100) false).runUpdates [(1/100, 1), (1/100, 1)]).finished = true ↔
      (2 : ℚ) * (Animation.make 2 (1/100) false).frame_duration ≤
        (([(1/100, 1), (1/100, 1)] : List (ℚ × ℚ)).map
          (fun s => effInc s.1 s.2)).sum) ∧
    (((Animation.make 2 (1/100) false).runUpdates [(1/100, 1), (1/100, 1)]).finished = true →
      ((Animation.make 2 (1/100) false).runUpdates [(1/100, 1), (1/100, 1)]).index = 2 - 1) ∧
    ((Animation.make 2 (1/100) false).runUpdates [(1/100, 1), (1/100, 1)]).finished = true := by
  have h := C4_theorem.1 2 (1/100) [(1/100, 1), (1/100, 1)] (by norm_num)
    (by intro s hs; fin_cases hs <;> constructor <;> norm_num [effInc, Animation.make])
  refine ⟨h.1, h.2, ?_⟩
  rw [h.1]
  norm_num [effInc, Animation.make]

/-- Claim C4 counterexample: a 2-frame non-looping animation fed a single
update whose effective elapsed time (12/1000) already exceeds
(n-1)*frameDuration = 1/100 is not finished after the call (its index has
only advanced to 1), refuting the claimed (N-1)*D finishing threshold. -/
theorem C4_counterexample :
    (((2 : ℕ) - 1 : ℕ) : ℚ) * (Animation.make 2 (1/100) false).frame_duration <
      effInc (12/1000) 1 ∧
    ((Animation.make 2 (1/100) false).update (12/1000) 1).finished = false ∧
    ((Animation.make 2 (1/100) false).update (12/1000) 1).index = 1 := by
  refine ⟨by norm_num [Animation.make, effInc], ?_, ?_⟩ <;>
    norm_num [Animation.make, Animation.update]

/-- Claim C3 (amended): with cooldown 0.5 s and fire attempts at t = 0,
0.1, 0.4, 0.5, 0.6, exactly two projectiles spawn, at t = 0 and t = 0.5;
the attempt at t = 0.6 fails because only 0.1 s has elapsed since the
successful shot at t = 0.5 reset the timer; every successful fire resets
timeSinceLastShot to 0 and every failed attempt is a silent no-op. -/
theorem C3_theorem :
    (fireSchedule halfSecondWeapon [] originMuzzle 1 [0]).2.length = 1 ∧
    (fireSchedule halfSecondWeapon [] originMuzzle 1 [0, 1/10]).2.length = 1 ∧
    (fireSchedule halfSecondWeapon [] originMuzzle 1 [0, 1/10, 3/10]).2.length = 1 ∧
    (fireSchedule halfSecondWeapon [] originMuzzle 1 [0, 1/10, 3/10, 1/10]).2.length = 2 ∧
    (fireSchedule halfSecondWeapon [] originMuzzle 1 [0, 1/10, 3/10, 1/10]).1.time_since_shot = 0 ∧
    (fireSchedule halfSecondWeapon [] originMuzzle 1 [0, 1/10, 3/10, 1/10, 1/10]).2.length = 2 ∧
    (∀ (w : Weapon) (bs : List Bullet) (pos : Vec2) (d : ℤ),
      w.can_shoot = false → w.shoot bs pos d = (w, bs)) ∧
    (∀ (w : Weapon) (bs : List Bullet) (pos : Vec2) (d : ℤ),
      w.can_shoot = true →
      w.shoot bs pos d = ({ w with time_since_shot := 0 }, bs ++ [Bullet.make pos d])) := by
  refine ⟨?_, ?_, ?_, ?_, ?_, ?_, ?_, ?_⟩
  · norm_num [fireSchedule, halfSecondWeapon, Weapon.update, Weapon.shoot, Weapon.can_shoot]
  · norm_num [fireSchedule, halfSecondWeapon, Weapon.update, Weapon.shoot, Weapon.can_shoot]
  · norm_num [fireSchedule, halfSecondWeapon, Weapon.update, Weapon.shoot, Weapon.can_shoot]
  · norm_num [fireSchedule, halfSecondWeapon, Weapon.update, Weapon.shoot, Weapon.can_shoot]
  · norm_num [fireSchedule, halfSecondWeapon, Weapon.update, Weapon.shoot, Weapon.can_shoot]
  · norm_num [fireSchedule, halfSecondWeapon, Weapon.update, Weapon.shoot, Weapon.can_shoot]
  · intro w bs pos d h; simp [Weapon.shoot, h]
  · intro w bs pos d h; simp [Weapon.shoot, h]

/-- Claim C3 witness: a concrete successful first shot, and the silent
no-op conjunct of C3_theorem applied at a concrete weapon whose cooldown
has not elapsed. -/
theorem C3_witness :
    (halfSecondWeapon.shoot [] originMuzzle 1).2.length = 1 ∧
    ({ halfSecondWeapon with time_since_shot := 1/10 }.shoot [] originMuzzle 1 =
      ({ halfSecondWeapon with time_since_shot := 1/10 }, [])) := by
  constructor
  · norm_num [halfSecondWeapon, Weapon.shoot, Weapon.can_shoot]
  · exact C3_theorem.2.2.2.2.2.2.1 _ [] originMuzzle 1
      (by norm_num [Weapon.can_shoot, halfSecondWeapon])

/-- Claim C3 counterexample: the claimed schedule spawns two projectiles,
not the three (at t = 0, 0.5 and 0.6) that the claim asserts. -/
theorem C3_counterexample :
    (fireSchedule halfSecondWeapon [] originMuzzle 1 [0, 1/10, 3/10, 1/10, 1/10]).2.length = 2 ∧
    ¬((fireSchedule halfSecondWeapon [] originMuzzle 1
        [0, 1/10, 3/10, 1/10, 1/10]).2.length = 3) := by
  constructor
  · norm_num [fireSchedule, halfSecondWeapon, Weapon.update, Weapon.shoot, Weapon.can_shoot]
  · norm_num [fireSchedule, halfSecondWeapon, Weapon.update, Weapon.shoot, Weapon.can_shoot]

theorem applyOp_bounds (p : Player) (op : HealthOp)
    (h0 : 0 ≤ p.health) (h1 : p.health ≤ p.max_health) (hm : 0 ≤ p.max_health)
    (ha : 0 ≤ op.amount) :
    0 ≤ (p.applyOp op).health ∧ (p.applyOp op).health ≤ p.max_health ∧
    (p.applyOp op).max_health = p.max_health := by
  cases op with
  | damage a =>
    simp only [Player.applyOp, Player.take_damage, HealthOp.amount] at *
    split_ifs <;> simp_all <;> omega
  | heal a =>
    simp only [Player.applyOp, Player.heal, HealthOp.amount] at *
    refine ⟨le_min hm (by omega), min_le_left _ _, trivial⟩

theorem applyOps_bounds (ops : List HealthOp) :
    ∀ (p : Player), 0 ≤ p.health → p.health ≤ p.max_health → 0 ≤ p.max_health →
      (∀ op ∈ ops, 0 ≤ op.amount) →
      0 ≤ (p.applyOps ops).health ∧
      (p.applyOps ops).health ≤ (p.applyOps ops).max_health := by
  induction ops with
  | nil => intro p h0 h1 _ _; exact ⟨h0, h1⟩
  | cons op t ih =>
    intro p h0 h1 hm hops
    have hstep := applyOp_bounds p op h0 h1 hm (hops op (List.mem_cons_self op t))
    have hrw : p.applyOps (op :: t) = (p.applyOp op).applyOps t := by
      simp [Player.applyOps]
    rw [hrw]
    exact ih (p.applyOp op) hstep.1 (hstep.2.2 ▸ hstep.2.1)
      (hstep.2.2 ▸ hm) (fun x hx => hops x (List.mem_cons_of_mem op hx))

/-- Claim C6 (amended): the player's health stays within [0, maxHealth]
under every sequence of takeDamage/heal operations with non-negative
amounts (damage floors at 0, heal clamps at maxHealth); enemy and boss
take_damage, by contrast, subtracts with no floor, so their health goes
negative on overkill (the sprite is merely killed), and negative amounts
are not clamped anywhere (see C6_counterexample). -/
theorem C6_theorem :
    (∀ (p : Player) (ops : List HealthOp),
      0 ≤ p.health → p.health ≤ p.max_health → 0 ≤ p.max_health →
      (∀ op ∈ ops, 0 ≤ op.amount) →
      0 ≤ (p.applyOps ops).health ∧
      (p.applyOps ops).health ≤ (p.applyOps ops).max_health) ∧
    (∀ (e : NormalEnemy) (a : ℤ), (e.take_damage a).health = e.health - a) ∧
    (∀ (b : BossEnemy) (a : ℤ), (b.take_damage a).health = b.health - a) := by
  refine ⟨fun p ops h0 h1 hm hops => applyOps_bounds ops p h0 h1 hm hops, ?_, ?_⟩
  · intro e a; simp [NormalEnemy.take_damage]
  · intro b a; simp [BossEnemy.take_damage]

/-- Claim C6 witness: the player part of C6_theorem applied to a fresh
player and a concrete damage/heal/damage sequence, hypotheses discharged
by computation. -/
theorem C6_witness :
    0 ≤ ((Player.make (0, 0) 6 8 8).applyOps
          [HealthOp.damage 30, HealthOp.heal 200, HealthOp.damage 5]).health ∧
    ((Player.make (0, 0) 6 8 8).applyOps
        [HealthOp.damage 30, HealthOp.heal 200, HealthOp.damage 5]).health ≤
      ((Player.make (0, 0) 6 8 8).applyOps
        [HealthOp.damage 30, HealthOp.heal 200, HealthOp.damage 5]).max_health := by
  exact C6_theorem.1 (Player.make (0, 0) 6 8 8)
    [HealthOp.damage 30, HealthOp.heal 200, HealthOp.damage 5]
    (by norm_num [Player.make, settings.PLAYER_MAX_HEALTH])
    (by norm_num [Player.make, settings.PLAYER_MAX_HEALTH])
    (by norm_num [Player.make, settings.PLAYER_MAX_HEALTH])
    (by intro op hop; fin_cases hop <;> norm_num [HealthOp.amount])

/-- Claim C6 counterexample: an enemy with health 30 taking 50 damage ends
at health -20 (no floor at zero), and a player healed by -200 ends at
health -100, so health does not stay within [0, maxHealth] for arbitrary
entities and amounts as claimed. -/
theorem C6_counterexample :
    ((NormalEnemy.make (0, 0) 6).take_damage 50).health = -20 ∧
    ¬(0 ≤ ((NormalEnemy.make (0, 0) 6).take_damage 50).health) ∧
    ((Player.make (0, 0) 6 8 8).heal (-200)).health = -100 ∧
    ¬(0 ≤ ((Player.make (0, 0) 6 8 8).heal (-200)).health) := by
  refine ⟨?_, ?_, ?_, ?_⟩ <;>
    norm_num [NormalEnemy.make, NormalEnemy.take_damage, Player.make, Player.heal,
      settings.PLAYER_MAX_HEALTH]

theorem parseRow_isSome (row : List String) :
    (parseRow row).isSome ↔ ∀ c ∈ row, (pyParseInt c).isSome := by
  induction row with
  | nil => simp [parseRow]
  | cons c t ih =>
    simp only [parseRow]
    cases hc : pyParseInt c with
    | none => simp [hc]
    | some v =>
      cases ht : parseRow t with
      | none => simp only [ht] at ih; simp [hc, ← ih]
      | some vs => simp only [ht] at ih; simp [hc, ← ih]

theorem parseRow_length (row : List String) :
    ∀ r, parseRow row = some r → r.length = row.length := by
  induction row with
  | nil => intro r h; simp [parseRow] at h; simp [← h]
  | cons c t ih =>
    intro r h
    simp only [parseRow] at h
    cases hc : pyParseInt c with
    | none => rw [hc] at h; simp at h
    | some v =>
      rw [hc] at h
      cases ht : parseRow t with
      | none => rw [ht] at h; simp at h
      | some vs =>
        rw [ht] at h
        simp only [Option.some_inj] at h
        subst h
        simp [ih vs ht]

theorem parseGrid_isSome (rows : List (List String)) :
    (parseGrid rows).isSome ↔ ∀ row ∈ rows, ∀ c ∈ row, (pyParseInt c).isSome := by
  induction rows with
  | nil => simp [parseGrid]
  | cons row t ih =>
    simp only [parseGrid]
    cases hr : parseRow row with
    | none =>
      have := (parseRow_isSome row).not
      simp only [hr] at this
      simp only [hr]
      constructor
      · intro h; simp at h
      · intro h
        exact absurd ((parseRow_isSome row).mpr (fun c hc => h row (List.mem_cons_self row t) c hc))
          (by simp [hr])
    | some r =>
      cases ht : parseGrid t with
      | none =>
        simp only [ht] at ih
        constructor
        · intro h; simp at h
        · intro h
          exact absurd (ih.mpr (fun x hx c hc => h x (List.mem_cons_of_mem row hx) c hc))
            (by simp)
      | some rs =>
        simp only [ht] at ih
        constructor
        · intro _ x hx c hc
          rcases List.mem_cons.mp hx with h | h
          · subst h
            exact (parseRow_isSome x).mp (by simp [hr]) c hc
          · exact ih.mp (by simp) x h c hc
        · intro _; simp

theorem parseGrid_heads (rows : List (List String)) :
    ∀ g, parseGrid rows = some g →
      g.length = rows.length ∧ g.headI.length = rows.headI.length := by
  induction rows with
  | nil => intro g h; simp [parseGrid] at h; subst h; exact ⟨rfl, rfl⟩
  | cons row t ih =>
    intro g h
    simp only [parseGrid] at h
    cases hr : parseRow row with
    | none => rw [hr] at h; simp at h
    | some r =>
      rw [hr] at h
      cases ht : parseGrid t with
      | none => rw [ht] at h; simp at h
      | some rs =>
        rw [ht] at h
        simp only [Option.some_inj] at h
        subst h
        simp [List.headI, (ih rs ht).1, parseRow_length row r hr]

theorem parseGrid_forall (P : ℕ → Prop) (rows : List (List String)) :
    ∀ g, parseGrid rows = some g →
      ((∀ r ∈ g, P r.length) ↔ (∀ row ∈ rows, P row.length)) := by
  induction rows with
  | nil => intro g h; simp [parseGrid] at h; subst h; simp
  | cons row t ih =>
    intro g h
    simp only [parseGrid] at h
    cases hr : parseRow row with
    | none => rw [hr] at h; simp at h
    | some r =>
      rw [hr] at h
      cases ht : parseGrid t with
      | none => rw [ht] at h; simp at h
      | some rs =>
        rw [ht] at h
        simp only [Option.some_inj] at h
        subst h
        have hlen := parseRow_length row r hr
        constructor
        · intro hall x hx
          rcases List.mem_cons.mp hx with hh | hh
          · subst hh; rw [← hlen]; exact hall r (List.mem_cons_self r rs)
          · exact (ih rs ht).mp (fun y hy => hall y (List.mem_cons_of_mem r hy)) x hh
        · intro hall x hx
          rcases List.mem_cons.mp hx with hh | hh
          · subst hh; rw [hlen]; exact hall row (List.mem_cons_self row t)
          · exact (ih rs ht).mpr (fun y hy => hall y (List.mem_cons_of_mem row hy)) x hh


theorem scanCols_ok (gy : ℕ) (row : List ℤ) (gxs : List ℕ) :
    ∀ lv : Level, (∃ lv', scanCols gy row gxs lv = .ok lv') ↔
      ∀ gx ∈ gxs, gx < row.length := by
  induction gxs with
  | nil => intro lv; simp [scanCols]
  | cons gx rest ih =>
    intro lv
    simp only [scanCols]
    cases hg : row.get? gx with
    | none =>
      have hlen : row.length ≤ gx := List.get?_eq_none.mp hg
      constructor
      · intro h; simp at h
      · intro h
        exact absurd (h gx (List.mem_cons_self gx rest)) (by omega)
    | some v =>
      have hlen : gx < row.length := by
        by_contra hc
        rw [List.get?_eq_none.mpr (by omega)] at hg
        simp at hg
      constructor
      · intro h y hy
        rcases List.mem_cons.mp hy with hh | hh
        · subst hh; exact hlen
        · exact (ih (scanCell lv gy gx v)).mp h y hh
      · intro h
        exact (ih (scanCell lv gy gx v)).mpr
          (fun y hy => h y (List.mem_cons_of_mem gx hy))

theorem scanRows_ok (width : ℕ) (rowsE : List (ℕ × List ℤ)) :
    ∀ lv : Level, (∃ lv', scanRows width rowsE lv = .ok lv') ↔
      ∀ pr ∈ rowsE, width ≤ pr.2.length := by
  induction rowsE with
  | nil => intro lv; simp [scanRows]
  | cons pr rest ih =>
    intro lv
    obtain ⟨gy, row⟩ := pr
    simp only [scanRows]
    cases hs : scanCols gy row (List.range width) lv with
    | error e =>
      have hcols := (scanCols_ok gy row (List.range width) lv).not
      simp only [hs] at hcols
      constructor
      · intro h; simp at h
      · intro h
        have hw : width ≤ row.length := by
          simpa using h (gy, row) (List.mem_cons_self _ rest)
        have : ∀ gx ∈ List.range width, gx < row.length := by
          intro gx hgx
          have := List.mem_range.mp hgx
          omega
        exact absurd this (by
          apply hcols.mp
          rintro ⟨lv', hlv'⟩
          simp at hlv')
    | ok lv1 =>
      have hcols : ∀ gx ∈ List.range width, gx < row.length :=
        (scanCols_ok gy row (List.range width) lv).mp ⟨lv1, hs⟩
      have hw : width ≤ row.length := by
        rcases Nat.eq_zero_or_pos width with hz | hp
        · omega
        · have := hcols (width - 1) (List.mem_range.mpr (by omega))
          omega
      constructor
      · intro h y hy
        rcases List.mem_cons.mp hy with hh | hh
        · subst hh; exact hw
        · exact (ih lv1).mp h y hh
      · intro h
        exact (ih lv1).mpr (fun y hy => h y (List.mem_cons_of_mem _ hy))

/-- Claim C7 (amended): Level.load_csv succeeds exactly when every cell
parses as an int and every row is at least as long as the first row.
Non-numeric cells are a fatal load error, and a row shorter than the first
row aborts the constructor (an IndexError while scanning), but a row
LONGER than the first row is accepted silently: the level is constructed
and the extra cells are ignored, contrary to the claimed fatal error for
all ragged grids. -/
theorem C7_theorem (rows : List (List String)) :
    (∃ lv, load_csv rows = .ok lv) ↔
    ((∀ row ∈ rows, ∀ cell ∈ row, (pyParseInt cell).isSome) ∧
     (∀ row ∈ rows, rows.headI.length ≤ row.length)) := by
  unfold load_csv
  cases hp : parseGrid rows with
  | none =>
    have hno : ¬(∀ row ∈ rows, ∀ c ∈ row, (pyParseInt c).isSome) := by
      intro h
      have := (parseGrid_isSome rows).mpr h
      rw [hp] at this
      simp at this
    constructor
    · intro h; simp at h
    · intro h; exact absurd h.1 hno
  | some g =>
    have hyes : ∀ row ∈ rows, ∀ c ∈ row, (pyParseInt c).isSome :=
      (parseGrid_isSome rows).mp (by simp [hp])
    obtain ⟨hglen, hghead⟩ := parseGrid_heads rows g hp
    have hsr := scanRows_ok (if g.length = 0 then 0 else g.headI.length) g.enum
    have henum : (∀ pr ∈ g.enum, (if g.length = 0 then 0 else g.headI.length) ≤ pr.2.length) ↔
        (∀ r ∈ g, (if g.length = 0 then 0 else g.headI.length) ≤ r.length) := by
      constructor
      · intro h r hr
        obtain ⟨i, hi⟩ := List.get_of_mem hr
        have hmem : (i.1, r) ∈ g.enum := by
          rw [List.mem_enum_iff_get?]
          rw [List.get?_eq_get i.2]
          simpa using hi
        simpa using h (i.1, r) hmem
      · intro h pr hpr
        have : pr.2 ∈ g := by
          have := List.mem_enum_iff_get?.mp (show (pr.1, pr.2) ∈ g.enum by simpa using hpr)
          exact List.get?_mem this
        exact h pr.2 this
    constructor
    · intro h
      refine ⟨hyes, ?_⟩
      have hforall := (hsr _).mp (by simpa using h)
      have hmem := henum.mp hforall
      have := (parseGrid_forall (fun n => (if g.length = 0 then 0 else g.headI.length) ≤ n)
        rows g hp).mp hmem
      intro row hrow
      have hx := this row hrow
      rcases Nat.eq_zero_or_pos g.length with hz | hpos
      · have : rows = [] := List.length_eq_zero.mp (by omega)
        subst this
        simp at hrow
      · rw [if_neg (by omega)] at hx
        rwa [hghead] at hx
    · rintro ⟨-, h⟩
      rw [show (∃ lv', scanRows (if g.length = 0 then 0 else g.headI.length) g.enum
        { grid := g, width := if g.length = 0 then 0 else g.headI.length,
          height := g.length,
          pixel_width := ((if g.length = 0 then 0 else g.headI.length : ℕ) : ℤ) * settings.TILE_SIZE,
          pixel_height := ((g.length : ℕ) : ℤ) * settings.TILE_SIZE,
          solid_rects := [], player_spawn := (0, 0), enemy_spawns := [],
          pickup_spawns := [], boss_spawn := none, exit_rect := none } = .ok lv')
        ↔ _ from hsr _]
      refine henum.mpr ?_
      refine (parseGrid_forall (fun n => (if g.length = 0 then 0 else g.headI.length) ≤ n)
        rows g hp).mpr ?_
      intro row hrow
      rcases Nat.eq_zero_or_pos g.length with hz | hpos
      · simp [hz]
      · rw [if_neg (by omega), hghead]
        exact h row hrow

/-- Claim C7 counterexample: a ragged grid whose second row is longer than
the first (lengths 3 vs 2) loads successfully, producing a degraded level
in which the solid tile code in the extra column is ignored
(solid_rects = []), instead of failing fatally as claimed. -/
theorem C7_counterexample :
    (["0", "0"] : List String).length ≠ (["0", "0", "1"] : List String).length ∧
    (load_csv [["0", "0"], ["0", "0", "1"]]).toOption =
      some { grid := [[0, 0], [0, 0, 1]], width := 2, height := 2,
             pixel_width := 32, pixel_height := 32, solid_rects := [],
             player_spawn := (0, 0), enemy_spawns := [], pickup_spawns := [],
             boss_spawn := none, exit_rect := none } := by
  constructor
  · decide
  · decide

theorem player_empty_tick (p : Player) (dt : ℚ) :
    (p.update dt emptyLevel).on_ground = false ∧
    (p.update dt emptyLevel).vel.y =
      (if 0 < decayTimer p.jump_buffer dt ∧ 0 < decayTimer p.coyote_timer dt
       then -settings.JUMP_SPEED else p.vel.y + settings.GRAVITY * dt) ∧
    (p.update dt emptyLevel).coyote_timer =
      (if 0 < decayTimer p.jump_buffer dt ∧ 0 < decayTimer p.coyote_timer dt
       then 0 else decayTimer p.coyote_timer dt) ∧
    (p.update dt emptyLevel).jump_buffer =
      (if 0 < decayTimer p.jump_buffer dt ∧ 0 < decayTimer p.coyote_timer dt
       then 0 else decayTimer p.jump_buffer dt) ∧
    (p.update dt emptyLevel).jump_buffer_time = p.jump_buffer_time ∧
    (p.update dt emptyLevel).coyote_time = p.coyote_time := by
  obtain ⟨-, -, hvel, hog, -, -, hjbt, hjb, hct, hcoy, -⟩ := update_phys p dt emptyLevel
  rw [hvel, hog, hjb, hcoy, hjbt, hct]
  simp only [Player.physStep]
  simp [emptyLevel, Level.get_solid_hits, List.filter, vertStep, vertCollideStep,
    groundProbe, List.isEmpty, PyRect.move, List.foldl, Bool.and_eq_true,
    decide_eq_true_eq]
  split_ifs <;> rfl

theorem decayTimer_zero (dt : ℚ) : decayTimer 0 dt = 0 := by
  simp [decayTimer]

theorem coastDown (p : Player) (hjb : p.jump_buffer = 0) :
    ∀ k : ℕ, ((k : ℚ)/100 ≤ p.coyote_timer) →
      (p.runTicks (1/100) emptyLevel k).jump_buffer = 0 ∧
      (p.runTicks (1/100) emptyLevel k).coyote_timer = p.coyote_timer - (k : ℚ)/100 ∧
      (p.runTicks (1/100) emptyLevel k).vel.y = p.vel.y + 18 * (k : ℚ) ∧
      (p.runTicks (1/100) emptyLevel k).jump_buffer_time = p.jump_buffer_time ∧
      (p.runTicks (1/100) emptyLevel k).coyote_time = p.coyote_time := by
  intro k
  induction k with
  | zero =>
    intro _
    exact ⟨hjb, by show p.coyote_timer = _; push_cast; ring,
      by show p.vel.y = _; push_cast; ring, rfl, rfl⟩
  | succ n ih =>
    intro hk
    have hk' : ((n : ℚ))/100 ≤ p.coyote_timer := by
      push_cast at hk ⊢
      linarith
    obtain ⟨ih1, ih2, ih3, ih4, ih5⟩ := ih hk'
    have htick := player_empty_tick (p.runTicks (1/100) emptyLevel n) (1/100)
    have hjb' : decayTimer (p.runTicks (1/100) emptyLevel n).jump_buffer (1/100) = 0 := by
      rw [ih1]; exact decayTimer_zero _
    have hcond : ¬(0 < decayTimer (p.runTicks (1/100) emptyLevel n).jump_buffer (1/100) ∧
        0 < decayTimer (p.runTicks (1/100) emptyLevel n).coyote_timer (1/100)) := by
      rw [hjb']
      rintro ⟨h, -⟩
      exact absurd h (by norm_num)
    have hcd : decayTimer (p.runTicks (1/100) emptyLevel n).coyote_timer (1/100) =
        p.coyote_timer - ((n : ℚ) + 1)/100 := by
      rw [ih2]
      have hpos : 0 < p.coyote_timer - (n : ℚ)/100 := by
        push_cast at hk
        linarith
      rw [decayTimer, if_pos hpos, max_eq_right (by push_cast at hk; linarith)]
      ring
    have hunfold : p.runTicks (1/100) emptyLevel (n + 1) =
        (p.runTicks (1/100) emptyLevel n).update (1/100) emptyLevel := rfl
    rw [hunfold]
    refine ⟨?_, ?_, ?_, ?_, ?_⟩
    · rw [htick.2.2.2.1, if_neg hcond, hjb']
    · rw [htick.2.2.1, if_neg hcond, hcd]
      push_cast
      ring
    · rw [htick.2.1, if_neg hcond, ih3]
      push_cast
      norm_num [settings.GRAVITY]
      ring
    · rw [htick.2.2.2.2.1, ih4]
    · rw [htick.2.2.2.2.2, ih5]

theorem coastZero (p : Player) (hc : p.coyote_timer = 0) :
    ∀ k : ℕ, (p.runTicks (1/100) emptyLevel k).coyote_timer = 0 ∧
      (p.runTicks (1/100) emptyLevel k).vel.y = p.vel.y + 18 * (k : ℚ) := by
  intro k
  induction k with
  | zero => exact ⟨hc, by show p.vel.y = _; push_cast; ring⟩
  | succ n ih =>
    have htick := player_empty_tick (p.runTicks (1/100) emptyLevel n) (1/100)
    have hcd : decayTimer (p.runTicks (1/100) emptyLevel n).coyote_timer (1/100) = 0 := by
      rw [ih.1]; exact decayTimer_zero _
    have hcond : ¬(0 < decayTimer (p.runTicks (1/100) emptyLevel n).jump_buffer (1/100) ∧
        0 < decayTimer (p.runTicks (1/100) emptyLevel n).coyote_timer (1/100)) := by
      rw [hcd]
      rintro ⟨-, h⟩
      exact absurd h (by norm_num)
    have hunfold : p.runTicks (1/100) emptyLevel (n + 1) =
        (p.runTicks (1/100) emptyLevel n).update (1/100) emptyLevel := rfl
    rw [hunfold]
    constructor
    · rw [htick.2.2.1, if_neg hcond, hcd]
    · rw [htick.2.1, if_neg hcond, ih.2]
      push_cast
      norm_num [settings.GRAVITY]
      ring

theorem runTicks_add (p : Player) (dt : ℚ) (lv : Level) (m n : ℕ) :
    p.runTicks dt lv (m + n) = (p.runTicks dt lv m).runTicks dt lv n := by
  induction n with
  | zero => rfl
  | succ k ih =>
    show (p.runTicks dt lv (m + k)).update dt lv = _
    rw [ih]
    rfl

theorem queue_jump_fields (p : Player) :
    (p.queue_jump).jump_buffer = p.jump_buffer_time ∧
    (p.queue_jump).coyote_timer = p.coyote_timer ∧
    (p.queue_jump).vel = p.vel ∧
    (p.queue_jump).on_ground = p.on_ground := by
  exact ⟨rfl, rfl, rfl, rfl⟩

set_option maxRecDepth 8000 in
/-- Claim C8: a player that leaves the ground at t=0 with the 0.10 s
coyote window, ticked at dt = 1/100 in open air: a jump queued at t = 0.08
succeeds on the next tick (vel.y becomes -JUMP_SPEED and both the jump
buffer and the coyote timer are cleared to zero), while a jump queued at
t = 0.15 never jumps: on every subsequent tick the coyote timer stays 0
and vel.y follows pure gravity (270 + 18k after k ticks), in particular
never -JUMP_SPEED. -/
theorem C8_theorem :
    (((ledgePlayer.runTicks (1/100) emptyLevel 8).queue_jump.update (1/100)
        emptyLevel).vel.y = -settings.JUMP_SPEED ∧
     ((ledgePlayer.runTicks (1/100) emptyLevel 8).queue_jump.update (1/100)
        emptyLevel).jump_buffer = 0 ∧
     ((ledgePlayer.runTicks (1/100) emptyLevel 8).queue_jump.update (1/100)
        emptyLevel).coyote_timer = 0) ∧
    (∀ k : ℕ,
      ((ledgePlayer.runTicks (1/100) emptyLevel 15).queue_jump.runTicks (1/100)
        emptyLevel k).coyote_timer = 0 ∧
      ((ledgePlayer.runTicks (1/100) emptyLevel 15).queue_jump.runTicks (1/100)
        emptyLevel k).vel.y = 270 + 18 * (k : ℚ) ∧
      ((ledgePlayer.runTicks (1/100) emptyLevel 15).queue_jump.runTicks (1/100)
        emptyLevel k).vel.y ≠ -settings.JUMP_SPEED) := by
  have hjb0 : ledgePlayer.jump_buffer = 0 := rfl
  constructor
  · obtain ⟨h8jb, h8c, h8v, h8jbt, -⟩ :=
      coastDown ledgePlayer hjb0 8 (by norm_num [ledgePlayer, Player.make])
    have hqjb : ((ledgePlayer.runTicks (1/100) emptyLevel 8).queue_jump).jump_buffer
        = 12/100 := by
      rw [(queue_jump_fields _).1, h8jbt]
      norm_num [ledgePlayer, Player.make]
    have hqc : ((ledgePlayer.runTicks (1/100) emptyLevel 8).queue_jump).coyote_timer
        = 2/100 := by
      rw [(queue_jump_fields _).2.1, h8c]
      norm_num [ledgePlayer, Player.make]
    have htick :=
      player_empty_tick ((ledgePlayer.runTicks (1/100) emptyLevel 8).queue_jump) (1/100)
    rw [hqjb, hqc] at htick
    have hcond : 0 < decayTimer (12/100) (1/100) ∧ 0 < decayTimer (2/100) (1/100) := by
      norm_num [decayTimer]
    simp only [if_pos hcond] at htick
    exact ⟨htick.2.1, htick.2.2.2.1, htick.2.2.1⟩
  · obtain ⟨h10jb, h10c, h10v, -, -⟩ :=
      coastDown ledgePlayer hjb0 10 (by norm_num [ledgePlayer, Player.make])
    have h10c' : (ledgePlayer.runTicks (1/100) emptyLevel 10).coyote_timer = 0 := by
      rw [h10c]; norm_num [ledgePlayer]
    have h10v' : (ledgePlayer.runTicks (1/100) emptyLevel 10).vel.y = 180 := by
      rw [h10v]; norm_num [ledgePlayer, Player.make]
    have hsplit : ledgePlayer.runTicks (1/100) emptyLevel 15 =
        (ledgePlayer.runTicks (1/100) emptyLevel 10).runTicks (1/100) emptyLevel 5 :=
      runTicks_add ledgePlayer (1/100) emptyLevel 10 5
    have h15 := coastZero (ledgePlayer.runTicks (1/100) emptyLevel 10) h10c' 5
    have h15c : (ledgePlayer.runTicks (1/100) emptyLevel 15).coyote_timer = 0 := by
      rw [hsplit]; exact h15.1
    have h15v : (ledgePlayer.runTicks (1/100) emptyLevel 15).vel.y = 270 := by
      rw [hsplit, h15.2, h10v']; norm_num
    intro k
    have hqc : ((ledgePlayer.runTicks (1/100) emptyLevel 15).queue_jump).coyote_timer
        = 0 := by rw [(queue_jump_fields _).2.1, h15c]
    have hqv : ((ledgePlayer.runTicks (1/100) emptyLevel 15).queue_jump).vel.y
        = 270 := by rw [show ((ledgePlayer.runTicks (1/100) emptyLevel 15).queue_jump).vel =
          (ledgePlayer.runTicks (1/100) emptyLevel 15).vel from rfl, h15v]
    have hB := coastZero ((ledgePlayer.runTicks (1/100) emptyLevel 15).queue_jump) hqc k
    refine ⟨hB.1, by rw [hB.2, hqv], ?_⟩
    rw [hB.2, hqv]
    have hk : (0 : ℚ) ≤ (k : ℚ) := by positivity
    intro h
    rw [show settings.JUMP_SPEED = (620 : ℚ) from rfl] at h
    linarith

/-- Claim C2 (amended): after every single-tick update of the float-tracked
movers (player, patrol enemy, boss), the collision rect origin equals the
Python-rounding of the float position on both axes, including after a
collision snap resynchronises the float from the rect. The projectile is
not such a mover: it has no float position (see C2_counterexample). -/
theorem C2_theorem :
    (∀ (p : Player) (dt : ℚ) (lv : Level),
      pyRound (p.update dt lv).pos.x = (p.update dt lv).rect.x ∧
      pyRound (p.update dt lv).pos.y = (p.update dt lv).rect.y) ∧
    (∀ (e : NormalEnemy) (dt : ℚ) (lv : Level),
      pyRound (e.update dt lv).pos.x = (e.update dt lv).rect.x ∧
      pyRound (e.update dt lv).pos.y = (e.update dt lv).rect.y) ∧
    (∀ (b : BossEnemy) (dt : ℚ) (lv : Level) (pr : PyRect) (bl : List Bullet),
      pyRound (b.update dt lv pr bl).1.pos.x = (b.update dt lv pr bl).1.rect.x ∧
      pyRound (b.update dt lv pr bl).1.pos.y = (b.update dt lv pr bl).1.rect.y) :=
  ⟨player_update_sync, enemy_update_sync, boss_update_sync⟩

/-- Claim C10: for every NormalEnemy and every sequence of updates against
any levels, the magnitude of the horizontal velocity stays at the initial
patrol speed of 80 px/s; a horizontal collision negates vel.x and flips
facing in the same tick, and no other operation changes vel.x. -/
theorem C10_theorem :
    (∀ (pos : ℤ × ℤ) (walkFrames : ℕ) (steps : List (ℚ × Level)),
      ((NormalEnemy.make pos walkFrames).runUpdates steps).vel.x = 80 ∨
      ((NormalEnemy.make pos walkFrames).runUpdates steps).vel.x = -80) ∧
    (∀ (e : NormalEnemy) (dt : ℚ) (lv : Level),
      (e.update dt lv).vel.x =
        (if lv.rect_collides_solid { e.rect with x := pyRound (e.pos.x + e.vel.x * dt) }
         then -e.vel.x else e.vel.x) ∧
      (e.update dt lv).facing =
        (if lv.rect_collides_solid { e.rect with x := pyRound (e.pos.x + e.vel.x * dt) }
         then -e.facing else e.facing)) := by
  constructor
  · intro pos walkFrames steps
    refine enemy_runUpdates_speed steps (NormalEnemy.make pos walkFrames) ?_
    right
    rfl
  · exact enemy_update_flip
